import Mathlib

/-!
Verification of the UAV route-optimizer core (geometry primitive, problem
Map, greedy constructor, heuristic optimizer) against its specification.

The Python source is shallowly embedded: floats become real numbers,
`numpy.sqrt` becomes `Real.sqrt`, lists and sets of points become
`List Point`, and the two unbounded `while` loops (the greedy main loop
and the 2-opt improvement loop) become fuel-indexed recursions; all
claims about them are proved for every fuel value, and the greedy loop
is additionally shown to stabilize once the fuel reaches the number of
objects, which is the termination argument of the original loop.
-/

open Classical

/-- 2D point. `error` models the `self.error = 1` calibration constant
set by the Python constructor. -/
structure Point where
  x : ℝ
  y : ℝ
  name : String
  error : ℝ

/-- The Python constructor `Point(x, y)`: the `error` field is always 1. -/
def mkPoint (x y : ℝ) : Point :=
  ⟨x, y, "", 1⟩

/-- `Point.distance_to`: Euclidean distance minus the error of the
receiver (the from-point). -/
noncomputable def Point.distance_to (p q : Point) : ℝ :=
  Real.sqrt ((p.x - q.x) ^ 2 + (p.y - q.y) ^ 2) - p.error

/-- Plain Euclidean distance between the coordinates of two points
(the spec's notion, with no bias). -/
noncomputable def euclidDist (p q : Point) : ℝ :=
  Real.sqrt ((p.x - q.x) ^ 2 + (p.y - q.y) ^ 2)

/-- `Point.distance_point_to_segment`: clamped projection of `p` on the
segment `a`-`b`, then the biased `distance_to` from `p` to the nearest
point; degenerate segment returns `distance_to a`. -/
noncomputable def Point.distance_point_to_segment (p a b : Point) : ℝ :=
  let dx := b.x - a.x
  let dy := b.y - a.y
  if dx = 0 ∧ dy = 0 then
    p.distance_to a
  else
    let t := max 0 (min 1 (((p.x - a.x) * dx + (p.y - a.y) * dy) / (dx * dx + dy * dy)))
    p.distance_to (mkPoint (a.x + t * dx) (a.y + t * dy))

/-- `Point.__eq__`: coordinate proximity within tolerance 0.01. -/
def peq (p q : Point) : Prop :=
  |p.x - q.x| < 0.01 ∧ |p.y - q.y| < 0.01

/-- `Point.__hash__` is `hash((self.x, self.y))`: it is determined by the
exact coordinate pair, so we model it by that pair. -/
def phash (p : Point) : ℝ × ℝ :=
  (p.x, p.y)

/-- Problem instance. -/
structure Map where
  start_point : Point
  end_point : Point
  objects : List Point
  max_distance : ℝ
  survey_radius : ℝ

/-- `Map.validate`, mirroring the early-return structure of the source.
Note the fourth check uses the biased `distance_to`. -/
noncomputable def Map.validate (m : Map) : Bool :=
  if peq m.start_point m.end_point then false
  else if m.max_distance ≤ 0 then false
  else if m.survey_radius < 0 then false
  else if m.start_point.distance_to m.end_point > m.max_distance then false
  else true

/-- The validation predicate the spec describes, with a plain Euclidean
distance in the reachability conjunct. -/
noncomputable def specValidate (m : Map) : Prop :=
  ¬ peq m.start_point m.end_point ∧ 0 < m.max_distance ∧ 0 ≤ m.survey_radius ∧
    euclidDist m.start_point m.end_point ≤ m.max_distance

/-- `Solver.calculate_route_distance`: sum of consecutive biased
distances, 0 for routes shorter than two points. -/
noncomputable def calculate_route_distance : List Point → ℝ
  | a :: b :: rest => a.distance_to b + calculate_route_distance (b :: rest)
  | _ => 0

/-- Consecutive pairs of a list (the segments of a route). -/
def pairsOf : List Point → List (Point × Point)
  | a :: b :: rest => (a, b) :: pairsOf (b :: rest)
  | _ => []

/-- An object is covered by a route at radius `r` when some consecutive
segment of the route is within `r` by `distance_point_to_segment`. -/
noncomputable def coveredBy (o : Point) (route : List Point) (r : ℝ) : Prop :=
  ∃ ab ∈ pairsOf route, o.distance_point_to_segment ab.1 ab.2 ≤ r

/-- `Solver.get_surveyed_objects`: re-prepends start and appends end,
then keeps every object covered by some segment. -/
noncomputable def get_surveyed_objects (m : Map) (route : List Point) : List Point :=
  m.objects.filter fun o =>
    decide (coveredBy o (m.start_point :: route ++ [m.end_point]) m.survey_radius)

-- ## Greedy constructor embedding

/-- `GreedySolver._point_to_line_distance`: note the biased
`distance_to` in the degenerate test and in the denominator of the
projection parameter, but the unbiased `np.sqrt` in the returned value. -/
noncomputable def pointToLineDistance (p a b : Point) : ℝ :=
  let ll := a.distance_to b
  if ll = 0 then p.distance_to a
  else
    let t := max 0 (min 1 (((p.x - a.x) * (b.x - a.x) + (p.y - a.y) * (b.y - a.y)) / ll ^ 2))
    Real.sqrt ((p.x - (a.x + t * (b.x - a.x))) ^ 2 + (p.y - (a.y + t * (b.y - a.y))) ^ 2)

/-- `GreedySolver._find_intersection_with_circle`. -/
noncomputable def findIntersection (s t c : Point) (radius : ℝ) : Option Point :=
  let dx := t.x - s.x
  let dy := t.y - s.y
  let d := Real.sqrt (dx ^ 2 + dy ^ 2)
  if d = 0 then some s
  else
    let ux := dx / d
    let uy := dy / d
    if s.distance_to c ≤ radius then some s
    else
      let projection := (c.x - s.x) * ux + (c.y - s.y) * uy
      if projection ≤ 0 then none
      else
        let cx := s.x + projection * ux
        let cy := s.y + projection * uy
        let distToLine := Real.sqrt ((c.x - cx) ^ 2 + (c.y - cy) ^ 2)
        if radius < distToLine then none
        else
          let offset := Real.sqrt (radius ^ 2 - distToLine ^ 2)
          some (mkPoint (cx - offset * ux) (cy - offset * uy))

/-- Running first-strict-minimum scan, as the Python
`for obj in unsurveyed: if dist < min_distance` loop. -/
noncomputable def nearestAux (c : Point) : Point → ℝ → List Point → Point
  | best, _, [] => best
  | best, bd, o :: rest =>
    if c.distance_to o < bd then nearestAux c o (c.distance_to o) rest
    else nearestAux c best bd rest

/-- The nearest-object selection of the greedy loop (`None` on an empty
collection, mirroring the `float('inf')` initialisation). -/
noncomputable def nearestIn (c : Point) : List Point → Option Point
  | [] => none
  | o :: rest => some (nearestAux c o (c.distance_to o) rest)

/-- Loop state of `GreedySolver.solve`. -/
structure GState where
  route : List Point
  routeLength : ℝ
  current : Point
  unsurveyed : List Point
  surveyed : List Point

/-- The main `while` loop of `GreedySolver.solve`, indexed by fuel; each
iteration consumes one unit. -/
noncomputable def greedyLoop (m : Map) : ℕ → GState → GState
  | 0, s => s
  | Nat.succ f, s =>
    if s.routeLength + s.current.distance_to m.end_point ≤ m.max_distance ∧
        s.unsurveyed ≠ [] then
      match nearestIn s.current s.unsurveyed with
      | none => s
      | some nearest =>
        match findIntersection s.current nearest nearest m.survey_radius with
        | none => greedyLoop m f { s with unsurveyed := s.unsurveyed.erase nearest }
        | some inter =>
          let nrl := s.routeLength + s.current.distance_to inter
          if m.max_distance < nrl + inter.distance_to m.end_point then s
          else greedyLoop m f
            { route := s.route ++ [inter]
              routeLength := nrl
              current := inter
              unsurveyed := s.unsurveyed.filter fun o =>
                decide (¬ inter.distance_to o ≤ m.survey_radius)
              surveyed := s.surveyed ++ s.unsurveyed.filter fun o =>
                decide (inter.distance_to o ≤ m.survey_radius) }
    else s

/-- Initial state: route `[start]`, length 0, everything unsurveyed. -/
noncomputable def initState (m : Map) : GState :=
  ⟨[m.start_point], 0, m.start_point, m.objects, []⟩

/-- The post-loop pass of `GreedySolver.solve`: objects close to the
straight final segment (by the unbiased `_point_to_line_distance`) are
surveyed at no cost, gated once by the remaining budget. -/
noncomputable def greedyPostLoop (m : Map) (s : GState) : List Point :=
  if s.unsurveyed ≠ [] ∧
      s.routeLength + s.current.distance_to m.end_point ≤ m.max_distance then
    s.surveyed ++ s.unsurveyed.filter fun o =>
      decide (pointToLineDistance o s.current m.end_point ≤ m.survey_radius)
  else s.surveyed

/-- `GreedySolver.solve` at a given fuel for the main loop. -/
noncomputable def greedySolveFuel (f : ℕ) (m : Map) : List Point × List Point × ℝ :=
  let s := greedyLoop m f (initState m)
  let route := s.route ++ [m.end_point]
  (route, greedyPostLoop m s, calculate_route_distance route)

/-- `GreedySolver.solve`: the loop removes at least one unsurveyed object
per non-final iteration, so `|objects|` fuel suffices (proved below). -/
noncomputable def greedySolve (m : Map) : List Point × List Point × ℝ :=
  greedySolveFuel m.objects.length m

-- ## Heuristic optimizer embedding

/-- The nearest-neighbour chain of `_greedy_initial_route`; the fuel is
the length of the remaining list, which is exact since each step removes
the chosen object. -/
noncomputable def initialChain (c : Point) : ℕ → List Point → List Point
  | 0, _ => []
  | _, [] => []
  | Nat.succ f, o :: rest =>
    match nearestIn c (o :: rest) with
    | none => []
    | some closest => closest :: initialChain closest f ((o :: rest).erase closest)

/-- `HeuristicSolver._greedy_initial_route`. -/
noncomputable def greedyInitialRoute (m : Map) : List Point :=
  m.start_point :: (initialChain m.start_point m.objects.length m.objects ++ [m.end_point])

/-- The 2-opt candidate `route[:i] + route[i:j+1][::-1] + route[j+1:]`. -/
def twoOptCandidate (r : List Point) (i j : ℕ) : List Point :=
  r.take i ++ ((r.drop i).take (j + 1 - i)).reverse ++ r.drop (j + 1)

/-- The `(i, j)` scan order of `_local_search_2opt`:
`i in range(1, n-2)`, `j in range(i+1, n-1)`. -/
def twoOptPairs (n : ℕ) : List (ℕ × ℕ) :=
  (List.range' 1 (n - 3)).flatMap fun i =>
    (List.range' (i + 1) (n - 1 - (i + 1))).map fun j => (i, j)

/-- One scan of `_local_search_2opt`: the first strictly improving
reversal, if any. -/
noncomputable def findImprovement (r : List Point) : Option (List Point) :=
  ((twoOptPairs r.length).find? fun ij =>
    decide (calculate_route_distance (twoOptCandidate r ij.1 ij.2) <
      calculate_route_distance r)).map fun ij => twoOptCandidate r ij.1 ij.2

/-- `HeuristicSolver._local_search_2opt` as a fuel-indexed
first-improvement loop. -/
noncomputable def twoOpt : ℕ → List Point → List Point
  | 0, r => r
  | Nat.succ f, r =>
    match findImprovement r with
    | none => r
    | some r2 => twoOpt f r2

/-- `HeuristicSolver._project_point_on_segment`. -/
noncomputable def projectPointOnSegment (p a b : Point) : Point :=
  let svx := b.x - a.x
  let svy := b.y - a.y
  let seglen := svx ^ 2 + svy ^ 2
  if seglen = 0 then a
  else
    let t := max 0 (min 1 (((p.x - a.x) * svx + (p.y - a.y) * svy) / seglen))
    mkPoint (a.x + t * svx) (a.y + t * svy)

/-- `HeuristicSolver._optimize_point_position`. -/
noncomputable def optimizePointPosition (m : Map) (obj prev nxt : Point) : Point :=
  let proj := projectPointOnSegment obj prev nxt
  let tx := proj.x - obj.x
  let ty := proj.y - obj.y
  let d := Real.sqrt (tx ^ 2 + ty ^ 2)
  if d = 0 then obj
  else if d ≤ m.survey_radius then proj
  else mkPoint (obj.x + tx / d * m.survey_radius) (obj.y + ty / d * m.survey_radius)

/-- The per-interior-point body of `_geometric_optimization`: the first
object within the survey radius of `cur` proposes a replacement, accepted
only if it strictly shortens the two adjacent edges measured against the
original neighbours. -/
noncomputable def geoStep (m : Map) (prev cur nxt : Point) : Point :=
  match m.objects.find? (fun o => decide (cur.distance_to o ≤ m.survey_radius)) with
  | none => cur
  | some obj =>
    let np := optimizePointPosition m obj prev nxt
    if prev.distance_to np + np.distance_to nxt < prev.distance_to cur + cur.distance_to nxt
    then np else cur

/-- Interior traversal of `_geometric_optimization`; reads always come
from the original route (the Python code writes to a copy). -/
noncomputable def geoAux (m : Map) : Point → Point → List Point → List Point
  | _, cur, [] => [cur]
  | prev, cur, nxt :: rest => geoStep m prev cur nxt :: geoAux m cur nxt rest

/-- `HeuristicSolver._geometric_optimization`. -/
noncomputable def geometric_optimization (m : Map) (route : List Point) : List Point :=
  match route with
  | a :: b :: rest => a :: geoAux m a b rest
  | r => r

/-- `HeuristicSolver._remove_farthest_point`. -/
noncomputable def remove_farthest_point (m : Map) (r : List Point) : List Point :=
  if r.length ≤ 3 then [m.start_point, m.end_point]
  else
    ((List.range' 1 (r.length - 2)).foldl
      (fun bm i =>
        let temp := r.eraseIdx i
        if calculate_route_distance temp < bm.2 then (temp, calculate_route_distance temp)
        else bm)
      (r, calculate_route_distance r)).1

/-- The outer iteration loop of `HeuristicSolver.solve` (cap 50 in the
source); `f2` is the fuel given to each inner 2-opt loop. -/
noncomputable def heurLoop (m : Map) (f2 : ℕ) : ℕ → List Point → List Point
  | 0, route => route
  | Nat.succ n, route =>
    let r1 := twoOpt f2 route
    let r2 := geometric_optimization m r1
    if calculate_route_distance r2 ≤ m.max_distance then r2
    else
      if (remove_farthest_point m r2).length ≤ 2 then remove_farthest_point m r2
      else heurLoop m f2 n (remove_farthest_point m r2)

/-- `HeuristicSolver.solve`, parametrised by the 2-opt fuel. -/
noncomputable def heuristicSolve (f2 : ℕ) (m : Map) : List Point × List Point × ℝ :=
  let route := heurLoop m f2 50 (greedyInitialRoute m)
  (route, get_surveyed_objects m route, calculate_route_distance route)

-- ## The greedy loop invariant

/-- Invariant of the greedy main loop: the route is nonempty, starts at
the map start, ends at the current position, its distance is the
accumulated length, and the committed length plus the direct final leg
fits the budget. -/
def GInv (m : Map) (s : GState) : Prop :=
  s.route ≠ [] ∧ s.route.head? = some m.start_point ∧
    s.route.getLast? = some s.current ∧
    calculate_route_distance s.route = s.routeLength ∧
    s.routeLength + s.current.distance_to m.end_point ≤ m.max_distance

-- ## An invalid map on which the greedy loop never makes progress:
-- a negative survey radius with an object at the start position.

noncomputable def cexC9 : Map :=
  ⟨mkPoint 0 0, mkPoint 3 0, [mkPoint 0 0], 10, -2⟩

-- ## The geometric-optimization step can lengthen a route: two adjacent
-- interior points are both replaced, each improvement being measured
-- against the original neighbours, and the new middle edge is longer.

noncomputable def ptA : Point := mkPoint (-3/4) 1

noncomputable def ptB : Point := mkPoint 0 0

noncomputable def ptC : Point := mkPoint (4/3) 0

noncomputable def ptD : Point := mkPoint (25/12) (-1)

noncomputable def obj1 : Point := mkPoint 0 1

noncomputable def obj2 : Point := mkPoint (4/3) (-1)

noncomputable def cexC6 : Map := ⟨ptA, ptD, [obj1, obj2], 100, 0⟩

noncomputable def routeC6 : List Point := [ptA, ptB, ptC, ptD]

-- ## Re-running the greedy solver with a larger survey radius can survey
-- strictly fewer objects: the larger radius stops the drone farther from
-- the first object, from where the nearest-object selection flips to a
-- decoy that pulls away from the end point and exhausts the budget.

noncomputable def c8S : Point := mkPoint 0 0

noncomputable def c8T : Point := mkPoint 8 0

noncomputable def c8o1 : Point := mkPoint 5 0

noncomputable def c8o2 : Point := mkPoint (21/2) 0

noncomputable def c8o3 : Point := mkPoint (-1) (-6)

noncomputable def mapR1 : Map := ⟨c8S, c8T, [c8o1, c8o2, c8o3], 10, 1⟩

noncomputable def mapR2 : Map := ⟨c8S, c8T, [c8o1, c8o2, c8o3], 10, 2⟩

-- ## A small valid map shared by several witnesses

noncomputable def simpleMap : Map := ⟨mkPoint 0 0, mkPoint 3 0, [], 10, 1⟩

-- Basic square-root evaluation helpers used throughout.

theorem sqrt_eval (a b : ℝ) (hb : 0 ≤ b) (h : a = b ^ 2) : Real.sqrt a = b := by
  rw [h, Real.sqrt_sq hb]

theorem sqrt_lt_of (a b : ℝ) (hb : 0 < b) (h : a < b ^ 2) : Real.sqrt a < b := by
  rw [Real.sqrt_lt' hb]; exact h

theorem lt_sqrt_of (a b : ℝ) (hb : 0 ≤ b) (h : b ^ 2 < a) : b < Real.sqrt a := by
  rw [show b = Real.sqrt (b ^ 2) by rw [Real.sqrt_sq hb]]
  exact Real.sqrt_lt_sqrt (by positivity) h

theorem sqrt_le_of (a b : ℝ) (hb : 0 ≤ b) (h : a ≤ b ^ 2) : Real.sqrt a ≤ b := by
  calc Real.sqrt a ≤ Real.sqrt (b ^ 2) := Real.sqrt_le_sqrt h
  _ = b := Real.sqrt_sq hb

theorem le_sqrt_of (a b : ℝ) (hb : 0 ≤ b) (h : b ^ 2 ≤ a) : b ≤ Real.sqrt a := by
  calc b = Real.sqrt (b ^ 2) := (Real.sqrt_sq hb).symm
  _ ≤ Real.sqrt a := Real.sqrt_le_sqrt h

theorem euclidDist_nonneg (p q : Point) : 0 ≤ euclidDist p q :=
  Real.sqrt_nonneg _

theorem distance_to_eq (p q : Point) :
    p.distance_to q = euclidDist p q - p.error := rfl

-- The Euclidean distance is the metric of the complex plane, which gives
-- us symmetry and the triangle inequality for free.

theorem euclidDist_eq_cdist (p q : Point) :
    euclidDist p q = dist (Complex.mk p.x p.y) (Complex.mk q.x q.y) := by
  rw [Complex.dist_eq, Complex.abs_apply, Complex.normSq_apply]
  unfold euclidDist
  rw [Complex.sub_re, Complex.sub_im]
  ring_nf

theorem euclidDist_comm (p q : Point) : euclidDist p q = euclidDist q p := by
  rw [euclidDist_eq_cdist, euclidDist_eq_cdist, dist_comm]

theorem euclidDist_triangle (p q s : Point) :
    euclidDist p s ≤ euclidDist p q + euclidDist q s := by
  rw [euclidDist_eq_cdist, euclidDist_eq_cdist, euclidDist_eq_cdist]
  exact dist_triangle _ _ _

-- ## Route-distance lemmas

theorem crd_append (r : List Point) (a p : Point) :
    calculate_route_distance (r ++ [a, p]) =
      calculate_route_distance (r ++ [a]) + a.distance_to p := by
  induction r with
  | nil => simp [calculate_route_distance]
  | cons b t ih =>
    cases t with
    | nil => simp [calculate_route_distance]
    | cons c t2 =>
      have h2 : ((b :: c :: t2) ++ [a, p]) = b :: ((c :: t2) ++ [a, p]) := by simp
      have h3 : ((b :: c :: t2) ++ [a]) = b :: ((c :: t2) ++ [a]) := by simp
      rw [h2, h3]
      have h4 : ∀ q : List Point, (c :: t2) ++ q = c :: (t2 ++ q) := by simp
      rw [h4, h4]
      show b.distance_to c + calculate_route_distance (c :: (t2 ++ [a, p])) = _
      rw [← h4, ih, h4]
      show _ = b.distance_to c + calculate_route_distance (c :: (t2 ++ [a])) + _
      ring

theorem crd_append_getLast (r : List Point) (a p : Point) (h : r.getLast? = some a) :
    calculate_route_distance (r ++ [p]) =
      calculate_route_distance r + a.distance_to p := by
  obtain ⟨q, rfl⟩ := List.getLast?_eq_some_iff.mp h
  have : q ++ [a] ++ [p] = q ++ [a, p] := by simp
  rw [this, crd_append]

-- ## Validation

theorem validate_iff (m : Map) :
    m.validate = true ↔
      ¬ peq m.start_point m.end_point ∧ 0 < m.max_distance ∧ 0 ≤ m.survey_radius ∧
        m.start_point.distance_to m.end_point ≤ m.max_distance := by
  unfold Map.validate
  split_ifs with h1 h2 h3 h4
  · simp [h1]
  · simp only [false_iff]; intro h; exact absurd h2 (not_le.mpr h.2.1)
  · simp only [false_iff]; intro h; exact absurd h3 (not_lt.mpr h.2.2.1)
  · simp only [false_iff]; intro h; exact absurd h4 (not_lt.mpr h.2.2.2)
  · simp only [true_iff]
    exact ⟨h1, not_le.mp h2, not_lt.mp h3, not_lt.mp h4⟩

theorem greedyLoop_inv (m : Map) (f : ℕ) (s : GState) (h : GInv m s) :
    GInv m (greedyLoop m f s) := by
  induction f generalizing s with
  | zero => exact h
  | succ f ih =>
    rw [greedyLoop]
    split_ifs with hg
    · split
      · exact h
      · rename_i nearest hn
        split
        · exact ih _ ⟨h.1, h.2.1, h.2.2.1, h.2.2.2.1, h.2.2.2.2⟩
        · rename_i inter hi
          simp only
          split_ifs with hb
          · exact h
          · apply ih
            obtain ⟨hne, hhd, hlast, hcrd, _⟩ := h
            refine ⟨by simp, ?_, ?_, ?_, ?_⟩
            · rw [List.head?_append]
              cases hh : s.route.head? with
              | none => exact absurd (List.head?_eq_none_iff.mp hh) hne
              | some z => rw [hh] at hhd; simpa [hh] using hhd
            · exact List.getLast?_concat _
            · show calculate_route_distance (s.route ++ [inter]) = _
              rw [crd_append_getLast s.route s.current inter hlast, hcrd]
            · exact not_lt.mp hb
    · exact h

theorem initState_inv (m : Map) (h : m.validate = true) : GInv m (initState m) := by
  obtain ⟨-, -, -, h4⟩ := (validate_iff m).mp h
  refine ⟨by simp [initState], rfl, rfl, rfl, ?_⟩
  simpa [initState] using h4

theorem greedySolveFuel_budget (m : Map) (h : m.validate = true) (f : ℕ) :
    calculate_route_distance (greedySolveFuel f m).1 ≤ m.max_distance := by
  have hinv := greedyLoop_inv m f (initState m) (initState_inv m h)
  obtain ⟨hne, hhd, hlast, hcrd, hbud⟩ := hinv
  show calculate_route_distance ((greedyLoop m f (initState m)).route ++ [m.end_point]) ≤ _
  rw [crd_append_getLast _ _ _ hlast, hcrd]
  exact hbud

theorem greedySolveFuel_endpoints (m : Map) (h : m.validate = true) (f : ℕ) :
    (greedySolveFuel f m).1.head? = some m.start_point ∧
      (greedySolveFuel f m).1.getLast? = some m.end_point ∧
      2 ≤ (greedySolveFuel f m).1.length := by
  have hinv := greedyLoop_inv m f (initState m) (initState_inv m h)
  obtain ⟨hne, hhd, hlast, -, -⟩ := hinv
  set s := greedyLoop m f (initState m)
  refine ⟨?_, ?_, ?_⟩
  · show (s.route ++ [m.end_point]).head? = _
    rw [List.head?_append]
    cases hh : s.route.head? with
    | none => exact absurd (List.head?_eq_none_iff.mp hh) hne
    | some z => rw [hh] at hhd; simpa [hh] using hhd
  · exact List.getLast?_concat _
  · show 2 ≤ (s.route ++ [m.end_point]).length
    have : 1 ≤ s.route.length := List.length_pos.mpr hne
    simp only [List.length_append, List.length_cons, List.length_nil]
    omega

-- ## Termination of the greedy loop

theorem nearestAux_mem (c best : Point) (bd : ℝ) (l : List Point) :
    nearestAux c best bd l = best ∨ nearestAux c best bd l ∈ l := by
  induction l generalizing best bd with
  | nil => left; rfl
  | cons o rest ih =>
    rw [nearestAux]
    split_ifs with h
    · rcases ih o (c.distance_to o) with h2 | h2
      · right; rw [h2]; exact List.mem_cons_self o rest
      · right; exact List.mem_cons_of_mem o h2
    · rcases ih best bd with h2 | h2
      · left; exact h2
      · right; exact List.mem_cons_of_mem o h2

theorem nearestIn_mem (c p : Point) (l : List Point) (h : nearestIn c l = some p) :
    p ∈ l := by
  cases l with
  | nil => simp [nearestIn] at h
  | cons o rest =>
    rw [nearestIn] at h
    injection h with h
    rcases nearestAux_mem c o (c.distance_to o) rest with h2 | h2
    · rw [← h, h2]; exact List.mem_cons_self o rest
    · rw [← h]; exact List.mem_cons_of_mem o h2

theorem nearestIn_isSome (c : Point) (l : List Point) (h : l ≠ []) :
    ∃ p, nearestIn c l = some p := by
  cases l with
  | nil => exact absurd rfl h
  | cons o rest => exact ⟨_, rfl⟩

/-- If the intersection routine is aimed straight at the circle centre
and returns a point, that point has nonnegative error provided the query
point does. -/
theorem findIntersection_error (s t c : Point) (r : ℝ) (inter : Point)
    (he : 0 ≤ s.error) (h : findIntersection s t c r = some inter) :
    0 ≤ inter.error := by
  simp only [findIntersection] at h
  split_ifs at h with h1 h2 h3 h4
  · injection h with h; rw [← h]; exact he
  · injection h with h; rw [← h]; exact he
  · injection h with h; rw [← h]; norm_num [mkPoint]

/-- Aimed at the centre of the circle, a returned intersection point is
within the biased survey radius of the centre, so the bonus-coverage
filter of the commit branch removes the selected object. -/
theorem findIntersection_covers (s c : Point) (r : ℝ) (inter : Point)
    (he : 0 ≤ s.error) (hr : 0 ≤ r)
    (h : findIntersection s c c r = some inter) :
    inter.distance_to c ≤ r := by
  simp only [findIntersection] at h
  split_ifs at h with h1 h2 h3 h4
  · -- degenerate direction: the current position coincides with the centre
    injection h with h
    have h0 : (c.x - s.x) ^ 2 + (c.y - s.y) ^ 2 = 0 := by
      have hnn : 0 ≤ (c.x - s.x) ^ 2 + (c.y - s.y) ^ 2 := by positivity
      exact (Real.sqrt_eq_zero hnn).mp h1
    have hx : c.x - s.x = 0 ∧ c.y - s.y = 0 := by
      constructor <;> nlinarith [sq_nonneg (c.x - s.x), sq_nonneg (c.y - s.y)]
    rw [← h]
    unfold Point.distance_to
    have : (s.x - c.x) ^ 2 + (s.y - c.y) ^ 2 = 0 := by nlinarith [hx.1, hx.2]
    rw [this, Real.sqrt_zero]
    linarith
  · injection h with h; rw [← h]; exact h2
  · -- genuine ray-circle intersection: the entry point is exactly on the circle
    injection h with h
    set dx := c.x - s.x with hdx
    set dy := c.y - s.y with hdy
    set d := Real.sqrt (dx ^ 2 + dy ^ 2) with hd
    have hdne : d ≠ 0 := h1
    have hdpos : 0 < d := lt_of_le_of_ne (Real.sqrt_nonneg _) (Ne.symm hdne)
    have hdsq : d ^ 2 = dx ^ 2 + dy ^ 2 := Real.sq_sqrt (by positivity)
    have hproj : dx * (dx / d) + dy * (dy / d) = d := by
      field_simp
      linarith [hdsq]
    rw [hproj] at h h4
    have hcx : s.x + d * (dx / d) = c.x := by field_simp; rw [hdx]; ring
    have hcy : s.y + d * (dy / d) = c.y := by field_simp; rw [hdy]; ring
    rw [hcx, hcy] at h h4
    have hz : Real.sqrt ((c.x - c.x) ^ 2 + (c.y - c.y) ^ 2) = 0 := by simp
    rw [hz] at h h4
    have hrnn : 0 ≤ r := hr
    have hoff : Real.sqrt (r ^ 2 - 0 ^ 2) = r := by
      rw [show r ^ 2 - 0 ^ 2 = r ^ 2 by ring, Real.sqrt_sq hrnn]
    rw [hoff] at h
    rw [← h]
    unfold Point.distance_to mkPoint
    simp only
    have hxx : c.x - r * (dx / d) - c.x = -(r * (dx / d)) := by ring
    have hyy : c.y - r * (dy / d) - c.y = -(r * (dy / d)) := by ring
    have harg : (c.x - r * (dx / d) - c.x) ^ 2 + (c.y - r * (dy / d) - c.y) ^ 2 = r ^ 2 := by
      rw [hxx, hyy]
      have e1 : (-(r * (dx / d))) ^ 2 + (-(r * (dy / d))) ^ 2 =
          r ^ 2 * ((dx ^ 2 + dy ^ 2) / d ^ 2) := by
        field_simp; ring
      rw [e1, ← hdsq]
      field_simp
    rw [harg, Real.sqrt_sq hrnn]
    linarith

theorem greedyLoop_stable (m : Map) (hr : 0 ≤ m.survey_radius) :
    ∀ f s, 0 ≤ s.current.error → s.unsurveyed.length ≤ f →
      greedyLoop m (f + 1) s = greedyLoop m f s := by
  intro f
  induction f with
  | zero =>
    intro s he hl
    have hu : s.unsurveyed = [] := List.length_eq_zero.mp (Nat.le_zero.mp hl)
    rw [greedyLoop, greedyLoop]
    split_ifs with hg
    · exact absurd hu hg.2
    · rfl
  | succ f ih =>
    intro s he hl
    rw [greedyLoop]
    conv_rhs => rw [greedyLoop]
    split_ifs with hg
    · split
      · rfl
      · rename_i nearest hn
        have hmem := nearestIn_mem s.current nearest s.unsurveyed hn
        split
        · rename_i hfi
          apply ih
          · exact he
          · show (s.unsurveyed.erase nearest).length ≤ f
            have := List.length_erase_of_mem hmem
            have hpos := List.length_pos.mpr (List.ne_nil_of_mem hmem)
            omega
        · rename_i inter hfi
          simp only
          split_ifs with hb
          · rfl
          · apply ih
            · exact findIntersection_error s.current nearest nearest m.survey_radius inter he hfi
            · have hcov := findIntersection_covers s.current nearest m.survey_radius inter he hr hfi
              have hlt : (s.unsurveyed.filter fun o =>
                  decide (¬ inter.distance_to o ≤ m.survey_radius)).length <
                    s.unsurveyed.length := by
                apply List.length_filter_lt_length_iff_exists.mpr
                exact ⟨nearest, hmem, by simp [hcov]⟩
              show (s.unsurveyed.filter fun o =>
                decide (¬ inter.distance_to o ≤ m.survey_radius)).length ≤ f
              omega
    · rfl

theorem greedyLoop_add_stable (m : Map) (hr : 0 ≤ m.survey_radius) (s : GState)
    (he : 0 ≤ s.current.error) :
    ∀ k, greedyLoop m (s.unsurveyed.length + k) s = greedyLoop m s.unsurveyed.length s := by
  intro k
  induction k with
  | zero => rfl
  | succ k ih =>
    rw [← ih, show s.unsurveyed.length + (k + 1) = (s.unsurveyed.length + k) + 1 by omega]
    exact greedyLoop_stable m hr (s.unsurveyed.length + k) s he (by omega)

-- ## Evaluation lemmas for concrete runs

theorem dist_eval (p q : Point) (v : ℝ) (hv : 0 ≤ v)
    (h : (p.x - q.x) ^ 2 + (p.y - q.y) ^ 2 = v ^ 2) :
    p.distance_to q = v - p.error := by
  unfold Point.distance_to
  rw [sqrt_eval _ v hv h]

theorem euclid_eval (p q : Point) (v : ℝ) (hv : 0 ≤ v)
    (h : (p.x - q.x) ^ 2 + (p.y - q.y) ^ 2 = v ^ 2) :
    euclidDist p q = v := by
  unfold euclidDist
  rw [sqrt_eval _ v hv h]

theorem euclid_swap (s c : Point) :
    Real.sqrt ((c.x - s.x) ^ 2 + (c.y - s.y) ^ 2) = euclidDist s c := by
  unfold euclidDist
  congr 1
  ring

theorem greedyLoop_commit (m : Map) (f : ℕ) (s : GState) (nearest inter : Point)
    (hg : s.routeLength + s.current.distance_to m.end_point ≤ m.max_distance)
    (hne : s.unsurveyed ≠ [])
    (hn : nearestIn s.current s.unsurveyed = some nearest)
    (hi : findIntersection s.current nearest nearest m.survey_radius = some inter)
    (hb : ¬ m.max_distance <
      s.routeLength + s.current.distance_to inter + inter.distance_to m.end_point) :
    greedyLoop m (f + 1) s = greedyLoop m f
      ⟨s.route ++ [inter], s.routeLength + s.current.distance_to inter, inter,
        s.unsurveyed.filter fun o => decide (¬ inter.distance_to o ≤ m.survey_radius),
        s.surveyed ++ s.unsurveyed.filter fun o =>
          decide (inter.distance_to o ≤ m.survey_radius)⟩ := by
  rw [greedyLoop, if_pos (And.intro hg hne)]
  simp only [hn, hi]
  rw [if_neg hb]

theorem greedyLoop_break (m : Map) (f : ℕ) (s : GState) (nearest inter : Point)
    (hg : s.routeLength + s.current.distance_to m.end_point ≤ m.max_distance)
    (hne : s.unsurveyed ≠ [])
    (hn : nearestIn s.current s.unsurveyed = some nearest)
    (hi : findIntersection s.current nearest nearest m.survey_radius = some inter)
    (hb : m.max_distance <
      s.routeLength + s.current.distance_to inter + inter.distance_to m.end_point) :
    greedyLoop m (f + 1) s = s := by
  rw [greedyLoop, if_pos (And.intro hg hne)]
  simp only [hn, hi]
  rw [if_pos hb]

/-- Ray-circle entry when aiming rightward along a horizontal line: the
entry point is at Euclidean distance `r` before the centre. -/
theorem findIntersection_horiz (s c : Point) (r : ℝ)
    (hy : c.y = s.y) (hx : s.x < c.x) (hstay : ¬ s.distance_to c ≤ r) (hr : 0 ≤ r) :
    findIntersection s c c r = some (mkPoint (c.x - r) s.y) := by
  have hdx : 0 < c.x - s.x := by linarith
  have hd : Real.sqrt ((c.x - s.x) ^ 2 + (c.y - s.y) ^ 2) = c.x - s.x := by
    apply sqrt_eval _ _ (le_of_lt hdx)
    rw [hy]
    ring
  simp only [findIntersection, hd]
  rw [if_neg (by positivity), if_neg hstay]
  rw [hy]
  have hne : c.x - s.x ≠ 0 := ne_of_gt hdx
  have hproj : (c.x - s.x) * ((c.x - s.x) / (c.x - s.x)) + (s.y - s.y) * ((s.y - s.y) / (c.x - s.x)) =
      c.x - s.x := by field_simp
  rw [hproj, if_neg (by push_neg; linarith)]
  have hcx : s.x + (c.x - s.x) * ((c.x - s.x) / (c.x - s.x)) = c.x := by field_simp
  have hcy : s.y + (c.x - s.x) * ((s.y - s.y) / (c.x - s.x)) = s.y := by
    field_simp
  rw [hcx, hcy]
  have hz : Real.sqrt ((c.x - c.x) ^ 2 + (s.y - s.y) ^ 2) = 0 := by simp
  rw [hz, if_neg (by push_neg; exact hr)]
  have hoff : Real.sqrt (r ^ 2 - 0 ^ 2) = r := by
    rw [show r ^ 2 - 0 ^ 2 = r ^ 2 by ring, Real.sqrt_sq hr]
  rw [hoff]
  congr 2
  · field_simp
  · field_simp

/-- In the genuine intersection branch (no stay, nonnegative radius and
error), the entry point lies on the circle of radius `r` around the
centre, at Euclidean distance `euclidDist s c - r` from the query point,
and carries the constructor error 1. -/
theorem findIntersection_full_form (s c : Point) (r : ℝ) (inter : Point)
    (hstay : ¬ s.distance_to c ≤ r) (hr : 0 ≤ r) (he : 0 ≤ s.error)
    (h : findIntersection s c c r = some inter) :
    s.distance_to inter = euclidDist s c - r - s.error ∧
      inter.error = 1 ∧ euclidDist inter c = r := by
  have heuc : euclidDist s c - s.error > r := by
    have : s.distance_to c > r := lt_of_not_le hstay
    rw [distance_to_eq] at this
    linarith
  have hdpos : 0 < euclidDist s c := by
    have h0 := euclidDist_nonneg s c
    by_contra hc
    push_neg at hc
    have : euclidDist s c = 0 := le_antisymm hc h0
    rw [this] at heuc
    linarith
  simp only [findIntersection] at h
  rw [euclid_swap] at h
  split_ifs at h with h1 h2 h3
  · exact absurd h1 (ne_of_gt hdpos)
  · -- the real intersection branch
    set dx := c.x - s.x with hdx
    set dy := c.y - s.y with hdy
    set d := euclidDist s c with hd
    have hdsq : d ^ 2 = dx ^ 2 + dy ^ 2 := by
      rw [hd, hdx, hdy, ← euclid_swap]
      exact Real.sq_sqrt (by positivity)
    have hdne : d ≠ 0 := ne_of_gt hdpos
    have hproj : dx * (dx / d) + dy * (dy / d) = d := by
      field_simp
      linarith [hdsq]
    rw [hproj] at h
    have hcx : s.x + d * (dx / d) = c.x := by field_simp; rw [hdx]; ring
    have hcy : s.y + d * (dy / d) = c.y := by field_simp; rw [hdy]; ring
    rw [hcx, hcy] at h
    have hz : Real.sqrt ((c.x - c.x) ^ 2 + (c.y - c.y) ^ 2) = 0 := by simp
    rw [hz] at h
    have hoff : Real.sqrt (r ^ 2 - 0 ^ 2) = r := by
      rw [show r ^ 2 - 0 ^ 2 = r ^ 2 by ring, Real.sqrt_sq hr]
    rw [hoff] at h
    injection h with h
    rw [← h]
    refine ⟨?_, rfl, ?_⟩
    · rw [distance_to_eq]
      have : euclidDist s (mkPoint (c.x - r * (dx / d)) (c.y - r * (dy / d))) = d - r := by
        apply euclid_eval _ _ (d - r) (by linarith)
        show (s.x - (c.x - r * (dx / d))) ^ 2 + (s.y - (c.y - r * (dy / d))) ^ 2 = _
        have e1 : s.x - (c.x - r * (dx / d)) = -dx + r * (dx / d) := by rw [hdx]; ring
        have e2 : s.y - (c.y - r * (dy / d)) = -dy + r * (dy / d) := by rw [hdy]; ring
        rw [e1, e2]
        have e3 : -dx + r * (dx / d) = dx * (r - d) / d := by field_simp; ring
        have e4 : -dy + r * (dy / d) = dy * (r - d) / d := by field_simp; ring
        rw [e3, e4]
        have : (dx * (r - d) / d) ^ 2 + (dy * (r - d) / d) ^ 2 =
            (dx ^ 2 + dy ^ 2) * (r - d) ^ 2 / d ^ 2 := by
          field_simp
          ring
        rw [this, ← hdsq]
        field_simp
        ring
      rw [this]
    · apply euclid_eval _ _ r hr
      show (c.x - r * (dx / d) - c.x) ^ 2 + (c.y - r * (dy / d) - c.y) ^ 2 = r ^ 2
      have e1 : c.x - r * (dx / d) - c.x = -(r * (dx / d)) := by ring
      have e2 : c.y - r * (dy / d) - c.y = -(r * (dy / d)) := by ring
      rw [e1, e2]
      have e3 : (-(r * (dx / d))) ^ 2 + (-(r * (dy / d))) ^ 2 =
          r ^ 2 * ((dx ^ 2 + dy ^ 2) / d ^ 2) := by
        field_simp
        ring
      rw [e3, ← hdsq]
      field_simp

@[simp] theorem mkPoint_x (a b : ℝ) : (mkPoint a b).x = a := rfl

@[simp] theorem mkPoint_y (a b : ℝ) : (mkPoint a b).y = b := rfl

@[simp] theorem mkPoint_error (a b : ℝ) : (mkPoint a b).error = 1 := rfl

theorem dist_mk (a b u v w : ℝ) (hw : 0 ≤ w) (h : (a - u) ^ 2 + (b - v) ^ 2 = w ^ 2) :
    (mkPoint a b).distance_to (mkPoint u v) = w - 1 := by
  rw [dist_eval _ _ w hw (by simpa using h)]
  simp

/-- Lower bounds used to justify the budget break without computing the
coordinates of the candidate entry point. -/
theorem findIntersection_break_lb (s c e : Point) (r : ℝ) (inter : Point)
    (hstay : ¬ s.distance_to c ≤ r) (hr : 0 ≤ r) (he : 0 ≤ s.error)
    (h : findIntersection s c c r = some inter) :
    s.distance_to inter = euclidDist s c - r - s.error ∧
      euclidDist c e - r - 1 ≤ inter.distance_to e := by
  obtain ⟨h1, h2, h3⟩ := findIntersection_full_form s c r inter hstay hr he h
  refine ⟨h1, ?_⟩
  rw [distance_to_eq, h2]
  have htr := euclidDist_triangle c inter e
  have hci : euclidDist c inter = r := by rw [euclidDist_comm]; exact h3
  linarith

theorem cexC9_dse : (mkPoint 0 0).distance_to (mkPoint 3 0) = 2 := by
  rw [dist_mk 0 0 3 0 3 (by norm_num) (by norm_num)]
  norm_num

theorem cexC9_dss : (mkPoint 0 0).distance_to (mkPoint 0 0) = -1 := by
  rw [dist_mk 0 0 0 0 0 le_rfl (by norm_num)]
  norm_num

theorem cexC9_near : nearestIn (mkPoint 0 0) [mkPoint 0 0] = some (mkPoint 0 0) := rfl

theorem cexC9_fi :
    findIntersection (mkPoint 0 0) (mkPoint 0 0) (mkPoint 0 0) (-2) =
      some (mkPoint 0 0) := by
  norm_num [findIntersection]

theorem cexC9_filter_keep :
    ([mkPoint 0 0].filter fun o =>
      decide (¬ (mkPoint 0 0).distance_to o ≤ (-2 : ℝ))) = [mkPoint 0 0] := by
  have h : ¬ (mkPoint 0 0).distance_to (mkPoint 0 0) ≤ (-2 : ℝ) := by
    rw [cexC9_dss]; norm_num
  simp [List.filter, h]

theorem cexC9_step (f : ℕ) (s : GState)
    (hcur : s.current = mkPoint 0 0) (huns : s.unsurveyed = [mkPoint 0 0])
    (hrl : s.routeLength ≤ 0) :
    greedyLoop cexC9 (f + 1) s = greedyLoop cexC9 f
      ⟨s.route ++ [mkPoint 0 0], s.routeLength + (-1), mkPoint 0 0,
        [mkPoint 0 0],
        s.surveyed ++ [mkPoint 0 0].filter fun o =>
          decide ((mkPoint 0 0).distance_to o ≤ cexC9.survey_radius)⟩ := by
  have hcommit := greedyLoop_commit cexC9 f s (mkPoint 0 0) (mkPoint 0 0)
    (by
      show s.routeLength + s.current.distance_to cexC9.end_point ≤ cexC9.max_distance
      rw [hcur]
      show s.routeLength + (mkPoint 0 0).distance_to (mkPoint 3 0) ≤ 10
      rw [cexC9_dse]; linarith)
    (by rw [huns]; simp)
    (by rw [hcur, huns]; exact cexC9_near)
    (by rw [hcur]; exact cexC9_fi)
    (by
      show ¬ cexC9.max_distance < s.routeLength + s.current.distance_to (mkPoint 0 0) +
        (mkPoint 0 0).distance_to cexC9.end_point
      rw [hcur, cexC9_dss]
      show ¬ (10 : ℝ) < s.routeLength + -1 + (mkPoint 0 0).distance_to (mkPoint 3 0)
      rw [cexC9_dse]
      linarith)
  rw [hcommit]
  congr 1
  simp only [show cexC9.survey_radius = (-2 : ℝ) from rfl]
  rw [hcur, huns, cexC9_dss, cexC9_filter_keep]

theorem cexC9_run1 :
    (greedyLoop cexC9 1 (initState cexC9)).route.length = 2 ∧
      (greedyLoop cexC9 1 (initState cexC9)).unsurveyed.length = 1 := by
  have h := cexC9_step 0 (initState cexC9) rfl rfl (le_refl 0)
  rw [h]
  constructor
  · show ((initState cexC9).route ++ [mkPoint 0 0]).length = 2
    simp [initState, cexC9]
  · rfl

theorem cexC9_run2 :
    (greedyLoop cexC9 2 (initState cexC9)).route.length = 3 ∧
      (greedyLoop cexC9 2 (initState cexC9)).unsurveyed.length = 1 := by
  have h1 := cexC9_step 1 (initState cexC9) rfl rfl (le_refl 0)
  rw [h1]
  have h2 := cexC9_step 0
    ⟨(initState cexC9).route ++ [mkPoint 0 0], (initState cexC9).routeLength + (-1),
      mkPoint 0 0, [mkPoint 0 0],
      (initState cexC9).surveyed ++ [mkPoint 0 0].filter fun o =>
        decide ((mkPoint 0 0).distance_to o ≤ cexC9.survey_radius)⟩
    rfl rfl (by show (initState cexC9).routeLength + (-1) ≤ 0; show (0:ℝ) + (-1) ≤ 0; norm_num)
  rw [h2]
  constructor
  · show (((initState cexC9).route ++ [mkPoint 0 0]) ++ [mkPoint 0 0]).length = 3
    simp [initState, cexC9]
  · rfl

-- ## Heuristic optimizer: structural lemmas

theorem head?_take (r : List Point) (i : ℕ) (hi : 1 ≤ i) : (r.take i).head? = r.head? := by
  cases r with
  | nil => simp
  | cons a t =>
    cases i with
    | zero => omega
    | succ k => simp

theorem getLast?_drop_eq (r : List Point) (k : ℕ) (hk : k < r.length) :
    (r.drop k).getLast? = r.getLast? := by
  conv_rhs => rw [← List.take_append_drop k r]
  rw [List.getLast?_append_of_ne_nil]
  simp only [ne_eq, List.drop_eq_nil_iff]
  omega

theorem head?_eraseIdx (r : List Point) (k : ℕ) (hk : 1 ≤ k) :
    (r.eraseIdx k).head? = r.head? := by
  cases r with
  | nil => simp
  | cons a t =>
    cases k with
    | zero => omega
    | succ j => rfl

theorem getLast?_eraseIdx (r : List Point) (k : ℕ) (hk : k + 1 < r.length) :
    (r.eraseIdx k).getLast? = r.getLast? := by
  rw [List.eraseIdx_eq_take_drop_succ, List.getLast?_append_of_ne_nil, getLast?_drop_eq]
  · omega
  · simp only [ne_eq, List.drop_eq_nil_iff]
    omega

theorem twoOptPairs_mem (n i j : ℕ) (h : (i, j) ∈ twoOptPairs n) :
    1 ≤ i ∧ i ≤ j ∧ j + 1 < n := by
  unfold twoOptPairs at h
  obtain ⟨a, ha, hm⟩ := List.mem_flatMap.mp h
  obtain ⟨b, hb, heq⟩ := List.mem_map.mp hm
  obtain ⟨h1, h2⟩ := List.mem_range'_1.mp ha
  obtain ⟨h3, h4⟩ := List.mem_range'_1.mp hb
  cases heq
  omega

theorem twoOptCandidate_head (r : List Point) (i j : ℕ) (hi : 1 ≤ i) :
    (twoOptCandidate r i j).head? = r.head? := by
  unfold twoOptCandidate
  cases r with
  | nil => simp
  | cons a t =>
    rw [List.append_assoc, List.head?_append, head?_take _ i hi]
    rfl

theorem twoOptCandidate_last (r : List Point) (i j : ℕ) (hj : j + 1 < r.length) :
    (twoOptCandidate r i j).getLast? = r.getLast? := by
  unfold twoOptCandidate
  rw [List.getLast?_append_of_ne_nil, getLast?_drop_eq]
  · exact hj
  · simp only [ne_eq, List.drop_eq_nil_iff]
    omega

theorem twoOptCandidate_length (r : List Point) (i j : ℕ) (hij : i ≤ j)
    (hj : j + 1 < r.length) :
    (twoOptCandidate r i j).length = r.length := by
  unfold twoOptCandidate
  simp only [List.length_append, List.length_take, List.length_reverse, List.length_drop]
  omega

theorem findImprovement_some (r r2 : List Point) (h : findImprovement r = some r2) :
    calculate_route_distance r2 < calculate_route_distance r ∧
      r2.head? = r.head? ∧ r2.getLast? = r.getLast? ∧ r2.length = r.length := by
  unfold findImprovement at h
  obtain ⟨ij, hf, hc⟩ := Option.map_eq_some'.mp h
  have hp := List.find?_some hf
  have hmem := List.mem_of_find?_eq_some hf
  obtain ⟨hi, hij, hj⟩ := twoOptPairs_mem r.length ij.1 ij.2 hmem
  rw [decide_eq_true_eq] at hp
  rw [← hc]
  exact ⟨hp, twoOptCandidate_head r ij.1 ij.2 hi, twoOptCandidate_last r ij.1 ij.2 hj,
    twoOptCandidate_length r ij.1 ij.2 hij hj⟩

theorem twoOpt_props (f : ℕ) (r : List Point) :
    calculate_route_distance (twoOpt f r) ≤ calculate_route_distance r ∧
      (twoOpt f r).head? = r.head? ∧ (twoOpt f r).getLast? = r.getLast? ∧
      (twoOpt f r).length = r.length := by
  induction f generalizing r with
  | zero => exact ⟨le_refl _, rfl, rfl, rfl⟩
  | succ f ih =>
    rw [twoOpt]
    cases hf : findImprovement r with
    | none => exact ⟨le_refl _, rfl, rfl, rfl⟩
    | some r2 =>
      obtain ⟨hlt, hh, hl, hlen⟩ := findImprovement_some r r2 hf
      obtain ⟨ih1, ih2, ih3, ih4⟩ := ih r2
      exact ⟨le_of_lt (lt_of_le_of_lt ih1 hlt), ih2.trans hh, ih3.trans hl, ih4.trans hlen⟩

theorem geoAux_length (m : Map) (rest : List Point) :
    ∀ prev cur, (geoAux m prev cur rest).length = rest.length + 1 := by
  induction rest with
  | nil => intro prev cur; rfl
  | cons nxt rest ih =>
    intro prev cur
    show (geoStep m prev cur nxt :: geoAux m cur nxt rest).length = _
    simp only [List.length_cons, ih cur nxt]

theorem getLast?_cons_of_ne_nil (x : Point) (l : List Point) (h : l ≠ []) :
    (x :: l).getLast? = l.getLast? := by
  cases l with
  | nil => exact absurd rfl h
  | cons a t => exact List.getLast?_cons_cons

theorem geoAux_last (m : Map) (rest : List Point) :
    ∀ prev cur, (geoAux m prev cur rest).getLast? = (cur :: rest).getLast? := by
  induction rest with
  | nil => intro prev cur; rfl
  | cons nxt rest ih =>
    intro prev cur
    show (geoStep m prev cur nxt :: geoAux m cur nxt rest).getLast? = _
    rw [getLast?_cons_of_ne_nil _ _ (by
      have := geoAux_length m rest cur nxt
      intro hc
      rw [hc] at this
      simp at this)]
    rw [ih cur nxt]
    exact List.getLast?_cons_cons.symm

theorem geometric_props (m : Map) (r : List Point) :
    (geometric_optimization m r).head? = r.head? ∧
      (geometric_optimization m r).getLast? = r.getLast? ∧
      (geometric_optimization m r).length = r.length := by
  match r with
  | [] => exact ⟨rfl, rfl, rfl⟩
  | [a] => exact ⟨rfl, rfl, rfl⟩
  | a :: b :: rest =>
    refine ⟨rfl, ?_, ?_⟩
    · show (a :: geoAux m a b rest).getLast? = _
      rw [getLast?_cons_of_ne_nil _ _ (by
        have := geoAux_length m rest a b
        intro hc
        rw [hc] at this
        simp at this)]
      rw [geoAux_last m rest a b]
      exact List.getLast?_cons_cons.symm
    · show (a :: geoAux m a b rest).length = _
      simp only [List.length_cons, geoAux_length m rest a b]

theorem remove_farthest_props (m : Map) (r : List Point) (h4 : 4 ≤ r.length) :
    calculate_route_distance (remove_farthest_point m r) ≤ calculate_route_distance r ∧
      (remove_farthest_point m r).head? = r.head? ∧
      (remove_farthest_point m r).getLast? = r.getLast? ∧
      3 ≤ (remove_farthest_point m r).length := by
  unfold remove_farthest_point
  rw [if_neg (by omega)]
  have key : ∀ (L : List ℕ) (bm : List Point × ℝ),
      (∀ k ∈ L, 1 ≤ k ∧ k + 1 < r.length) →
      (calculate_route_distance bm.1 = bm.2 ∧ bm.2 ≤ calculate_route_distance r ∧
        bm.1.head? = r.head? ∧ bm.1.getLast? = r.getLast? ∧ 3 ≤ bm.1.length) →
      (calculate_route_distance (L.foldl (fun bm i =>
          let temp := r.eraseIdx i
          if calculate_route_distance temp < bm.2 then
            (temp, calculate_route_distance temp) else bm) bm).1 =
        (L.foldl (fun bm i =>
          let temp := r.eraseIdx i
          if calculate_route_distance temp < bm.2 then
            (temp, calculate_route_distance temp) else bm) bm).2 ∧
        (L.foldl (fun bm i =>
          let temp := r.eraseIdx i
          if calculate_route_distance temp < bm.2 then
            (temp, calculate_route_distance temp) else bm) bm).2 ≤
          calculate_route_distance r ∧
        (L.foldl (fun bm i =>
          let temp := r.eraseIdx i
          if calculate_route_distance temp < bm.2 then
            (temp, calculate_route_distance temp) else bm) bm).1.head? = r.head? ∧
        (L.foldl (fun bm i =>
          let temp := r.eraseIdx i
          if calculate_route_distance temp < bm.2 then
            (temp, calculate_route_distance temp) else bm) bm).1.getLast? = r.getLast? ∧
        3 ≤ (L.foldl (fun bm i =>
          let temp := r.eraseIdx i
          if calculate_route_distance temp < bm.2 then
            (temp, calculate_route_distance temp) else bm) bm).1.length) := by
    intro L
    induction L with
    | nil => intro bm _ hbm; exact hbm
    | cons k L ih =>
      intro bm hL hbm
      rw [List.foldl_cons]
      apply ih
      · intro x hx; exact hL x (List.mem_cons_of_mem k hx)
      · obtain ⟨hk1, hk2⟩ := hL k (List.mem_cons_self k L)
        obtain ⟨hb1, hb2, hb3, hb4, hb5⟩ := hbm
        simp only
        split_ifs with hc
        · refine ⟨rfl, le_of_lt (lt_of_lt_of_le hc hb2), ?_, ?_, ?_⟩
          · exact head?_eraseIdx r k hk1
          · exact getLast?_eraseIdx r k hk2
          · rw [List.length_eraseIdx]
            split_ifs with hk3
            · omega
            · omega
        · exact ⟨hb1, hb2, hb3, hb4, hb5⟩
  have hinit : calculate_route_distance (r, calculate_route_distance r).1 =
      (r, calculate_route_distance r).2 ∧
      (r, calculate_route_distance r).2 ≤ calculate_route_distance r ∧
      (r, calculate_route_distance r).1.head? = r.head? ∧
      (r, calculate_route_distance r).1.getLast? = r.getLast? ∧
      3 ≤ (r, calculate_route_distance r).1.length :=
    ⟨rfl, le_refl _, rfl, rfl, by show 3 ≤ r.length; omega⟩
  have hbounds : ∀ k ∈ List.range' 1 (r.length - 2), 1 ≤ k ∧ k + 1 < r.length := by
    intro k hk
    obtain ⟨h1, h2⟩ := List.mem_range'_1.mp hk
    omega
  obtain ⟨g1, g2, g3, g4, g5⟩ := key (List.range' 1 (r.length - 2))
    (r, calculate_route_distance r) hbounds hinit
  exact ⟨g1.trans_le g2, g3, g4, g5⟩

theorem remove_farthest_collapse (m : Map) (r : List Point) (h3 : r.length ≤ 3) :
    remove_farthest_point m r = [m.start_point, m.end_point] := by
  unfold remove_farthest_point
  rw [if_pos h3]

theorem heurLoop_props (m : Map) (f2 n : ℕ) (r : List Point)
    (hh : r.head? = some m.start_point) (hl : r.getLast? = some m.end_point)
    (h2 : 2 ≤ r.length) :
    (heurLoop m f2 n r).head? = some m.start_point ∧
      (heurLoop m f2 n r).getLast? = some m.end_point ∧
      2 ≤ (heurLoop m f2 n r).length := by
  induction n generalizing r with
  | zero => exact ⟨hh, hl, h2⟩
  | succ n ih =>
    rw [heurLoop]
    obtain ⟨t1, t2, t3, t4⟩ := twoOpt_props f2 r
    obtain ⟨g1, g2, g3⟩ := geometric_props m (twoOpt f2 r)
    have hh2 : (geometric_optimization m (twoOpt f2 r)).head? = some m.start_point := by
      rw [g1, t2, hh]
    have hl2 : (geometric_optimization m (twoOpt f2 r)).getLast? = some m.end_point := by
      rw [g2, t3, hl]
    have hlen2 : 2 ≤ (geometric_optimization m (twoOpt f2 r)).length := by
      rw [g3, t4]; exact h2
    split_ifs with hc hc2
    · exact ⟨hh2, hl2, hlen2⟩
    · by_cases h43 : (geometric_optimization m (twoOpt f2 r)).length ≤ 3
      · rw [remove_farthest_collapse m (geometric_optimization m (twoOpt f2 r)) h43]
        exact ⟨rfl, rfl, by simp⟩
      · obtain ⟨r1p, r2p, r3p, r4p⟩ :=
          remove_farthest_props m (geometric_optimization m (twoOpt f2 r)) (by omega)
        exact ⟨r2p.trans hh2, r3p.trans hl2, by omega⟩
    · by_cases h43 : (geometric_optimization m (twoOpt f2 r)).length ≤ 3
      · rw [remove_farthest_collapse m (geometric_optimization m (twoOpt f2 r)) h43] at hc2
        simp at hc2
      · obtain ⟨r1p, r2p, r3p, r4p⟩ :=
          remove_farthest_props m (geometric_optimization m (twoOpt f2 r)) (by omega)
        exact ih _ (r2p.trans hh2) (r3p.trans hl2) (by omega)

theorem greedyInitialRoute_props (m : Map) :
    (greedyInitialRoute m).head? = some m.start_point ∧
      (greedyInitialRoute m).getLast? = some m.end_point ∧
      2 ≤ (greedyInitialRoute m).length := by
  unfold greedyInitialRoute
  refine ⟨rfl, ?_, ?_⟩
  · show ((m.start_point :: initialChain m.start_point m.objects.length m.objects) ++
      [m.end_point]).getLast? = some m.end_point
    exact List.getLast?_concat _
  · simp

theorem crd_pair (a b : Point) :
    calculate_route_distance [a, b] = a.distance_to b := by
  simp [calculate_route_distance]

theorem greedyLoop_empty (m : Map) (hobj : m.objects = []) (f : ℕ) :
    greedyLoop m f (initState m) = initState m := by
  cases f with
  | zero => rfl
  | succ f =>
    rw [greedyLoop, if_neg]
    simp [initState, hobj]

theorem twoOpt_two (f : ℕ) (a b : Point) : twoOpt f [a, b] = [a, b] := by
  induction f with
  | zero => rfl
  | succ f ih =>
    rw [twoOpt]
    have hfi : findImprovement [a, b] = none := rfl
    rw [hfi]

theorem greedySolve_empty (m : Map) (hobj : m.objects = []) :
    greedySolve m =
      ([m.start_point, m.end_point], [], m.start_point.distance_to m.end_point) := by
  unfold greedySolve greedySolveFuel
  rw [greedyLoop_empty m hobj]
  have hroute : (initState m).route ++ [m.end_point] = [m.start_point, m.end_point] := by
    simp [initState]
  have hpost : greedyPostLoop m (initState m) = [] := by
    unfold greedyPostLoop
    rw [if_neg]
    · rfl
    · simp [initState, hobj]
  simp only [hroute, hpost, crd_pair]

theorem heurLoop_succ_feasible (m : Map) (f2 n : ℕ) (r : List Point)
    (h : calculate_route_distance (geometric_optimization m (twoOpt f2 r)) ≤
      m.max_distance) :
    heurLoop m f2 (n + 1) r = geometric_optimization m (twoOpt f2 r) := by
  rw [heurLoop, if_pos h]

theorem heuristicSolve_empty (m : Map) (h : m.validate = true) (hobj : m.objects = [])
    (f2 : ℕ) :
    heuristicSolve f2 m =
      ([m.start_point, m.end_point], [], m.start_point.distance_to m.end_point) := by
  have hinit : greedyInitialRoute m = [m.start_point, m.end_point] := by
    unfold greedyInitialRoute
    rw [hobj]
    rfl
  have hgeo : geometric_optimization m [m.start_point, m.end_point] =
      [m.start_point, m.end_point] := rfl
  have hloop : heurLoop m f2 50 [m.start_point, m.end_point] =
      [m.start_point, m.end_point] := by
    show heurLoop m f2 (49 + 1) [m.start_point, m.end_point] = _
    rw [heurLoop_succ_feasible m f2 49 [m.start_point, m.end_point]
      (by rw [twoOpt_two, hgeo, crd_pair]; exact ((validate_iff m).mp h).2.2.2)]
    rw [twoOpt_two, hgeo]
  have hsurv : get_surveyed_objects m [m.start_point, m.end_point] = [] := by
    unfold get_surveyed_objects
    rw [hobj]
    rfl
  unfold heuristicSolve
  rw [hinit, hloop]
  show ([m.start_point, m.end_point], get_surveyed_objects m [m.start_point, m.end_point],
    calculate_route_distance [m.start_point, m.end_point]) = _
  rw [hsurv, crd_pair]

theorem cexC6_dAB : ptA.distance_to ptB = 1/4 := by
  show (mkPoint (-3/4) 1).distance_to (mkPoint 0 0) = 1/4
  rw [dist_mk (-3/4) 1 0 0 (5/4) (by norm_num) (by norm_num)]
  norm_num

theorem cexC6_dBC : ptB.distance_to ptC = 1/3 := by
  show (mkPoint 0 0).distance_to (mkPoint (4/3) 0) = 1/3
  rw [dist_mk 0 0 (4/3) 0 (4/3) (by norm_num) (by norm_num)]
  norm_num

theorem cexC6_dCD : ptC.distance_to ptD = 1/4 := by
  show (mkPoint (4/3) 0).distance_to (mkPoint (25/12) (-1)) = 1/4
  rw [dist_mk (4/3) 0 (25/12) (-1) (5/4) (by norm_num) (by norm_num)]
  norm_num

theorem cexC6_dAo1 : ptA.distance_to (mkPoint 0 1) = -(1/4) := by
  show (mkPoint (-3/4) 1).distance_to (mkPoint 0 1) = -(1/4)
  rw [dist_mk (-3/4) 1 0 1 (3/4) (by norm_num) (by norm_num)]
  norm_num

theorem cexC6_do1C : (mkPoint 0 1).distance_to ptC = 2/3 := by
  show (mkPoint 0 1).distance_to (mkPoint (4/3) 0) = 2/3
  rw [dist_mk 0 1 (4/3) 0 (5/3) (by norm_num) (by norm_num)]
  norm_num

theorem cexC6_dBo1 : ptB.distance_to obj1 = 0 := by
  show (mkPoint 0 0).distance_to (mkPoint 0 1) = 0
  rw [dist_mk 0 0 0 1 1 (by norm_num) (by norm_num)]
  norm_num

theorem cexC6_dCo1 : ptC.distance_to obj1 = 2/3 := by
  show (mkPoint (4/3) 0).distance_to (mkPoint 0 1) = 2/3
  rw [dist_mk (4/3) 0 0 1 (5/3) (by norm_num) (by norm_num)]
  norm_num

theorem cexC6_dCo2 : ptC.distance_to obj2 = 0 := by
  show (mkPoint (4/3) 0).distance_to (mkPoint (4/3) (-1)) = 0
  rw [dist_mk (4/3) 0 (4/3) (-1) 1 (by norm_num) (by norm_num)]
  norm_num

theorem cexC6_dBnp2 : ptB.distance_to (mkPoint (4/3) (-1)) = 2/3 := by
  show (mkPoint 0 0).distance_to (mkPoint (4/3) (-1)) = 2/3
  rw [dist_mk 0 0 (4/3) (-1) (5/3) (by norm_num) (by norm_num)]
  norm_num

theorem cexC6_dnp2D : (mkPoint (4/3) (-1)).distance_to ptD = -(1/4) := by
  show (mkPoint (4/3) (-1)).distance_to (mkPoint (25/12) (-1)) = -(1/4)
  rw [dist_mk (4/3) (-1) (25/12) (-1) (3/4) (by norm_num) (by norm_num)]
  norm_num

theorem cexC6_proj1 : projectPointOnSegment obj1 ptA ptC = mkPoint (-108/769) (544/769) := by
  unfold projectPointOnSegment
  simp only [ptA, ptC, obj1, mkPoint_x, mkPoint_y]
  rw [if_neg (by norm_num)]
  rw [show ((0 - (-3/4 : ℝ)) * (4/3 - -3/4) + (1 - 1) * (0 - 1)) /
    ((4/3 - -3/4) ^ 2 + (0 - 1) ^ 2) = 225/769 by norm_num]
  rw [min_eq_right (by norm_num), max_eq_right (by norm_num)]
  congr 1 <;> norm_num

theorem cexC6_proj2 : projectPointOnSegment obj2 ptB ptD = mkPoint (3400/2307) (-544/769) := by
  unfold projectPointOnSegment
  simp only [ptB, ptD, obj2, mkPoint_x, mkPoint_y]
  rw [if_neg (by norm_num)]
  rw [show ((4/3 - (0:ℝ)) * (25/12 - 0) + (-1 - 0) * (-1 - 0)) /
    ((25/12 - 0) ^ 2 + (-1 - 0) ^ 2) = 544/769 by norm_num]
  rw [min_eq_right (by norm_num), max_eq_right (by norm_num)]
  congr 1 <;> norm_num

theorem cexC6_opt1 : optimizePointPosition cexC6 obj1 ptA ptC = mkPoint 0 1 := by
  unfold optimizePointPosition
  rw [cexC6_proj1]
  simp only [obj1, mkPoint_x, mkPoint_y]
  rw [if_neg (by
    show Real.sqrt ((-108/769 - 0) ^ 2 + (544/769 - 1) ^ 2) ≠ 0
    rw [Real.sqrt_ne_zero']
    norm_num)]
  rw [if_neg (by
    show ¬ Real.sqrt ((-108/769 - 0) ^ 2 + (544/769 - 1) ^ 2) ≤ cexC6.survey_radius
    push_neg
    show (0:ℝ) < _
    apply Real.sqrt_pos.mpr
    norm_num)]
  show mkPoint (0 + _ * cexC6.survey_radius) (1 + _ * cexC6.survey_radius) = mkPoint 0 1
  rw [show cexC6.survey_radius = 0 from rfl]
  congr 1 <;> ring

theorem cexC6_opt2 : optimizePointPosition cexC6 obj2 ptB ptD = mkPoint (4/3) (-1) := by
  unfold optimizePointPosition
  rw [cexC6_proj2]
  simp only [obj2, mkPoint_x, mkPoint_y]
  rw [if_neg (by
    show Real.sqrt ((3400/2307 - 4/3) ^ 2 + (-544/769 - -1) ^ 2) ≠ 0
    rw [Real.sqrt_ne_zero']
    norm_num)]
  rw [if_neg (by
    show ¬ Real.sqrt ((3400/2307 - 4/3) ^ 2 + (-544/769 - -1) ^ 2) ≤ cexC6.survey_radius
    push_neg
    show (0:ℝ) < _
    apply Real.sqrt_pos.mpr
    norm_num)]
  show mkPoint (4/3 + _ * cexC6.survey_radius) (-1 + _ * cexC6.survey_radius) =
    mkPoint (4/3) (-1)
  rw [show cexC6.survey_radius = 0 from rfl]
  congr 1 <;> ring

theorem cexC6_gs1 : geoStep cexC6 ptA ptB ptC = mkPoint 0 1 := by
  unfold geoStep
  have hfind : cexC6.objects.find?
      (fun o => decide (ptB.distance_to o ≤ cexC6.survey_radius)) = some obj1 := by
    show List.find? _ [obj1, obj2] = some obj1
    apply List.find?_cons_of_pos
    simp [cexC6_dBo1, show cexC6.survey_radius = (0:ℝ) from rfl]
  rw [hfind]
  simp only
  rw [cexC6_opt1]
  rw [if_pos (by
    rw [cexC6_dAo1, cexC6_do1C, cexC6_dAB, cexC6_dBC]
    norm_num)]

theorem cexC6_gs2 : geoStep cexC6 ptB ptC ptD = mkPoint (4/3) (-1) := by
  unfold geoStep
  have hfind : cexC6.objects.find?
      (fun o => decide (ptC.distance_to o ≤ cexC6.survey_radius)) = some obj2 := by
    show List.find? _ [obj1, obj2] = some obj2
    rw [List.find?_cons_of_neg _ (by
      simp [cexC6_dCo1, show cexC6.survey_radius = (0:ℝ) from rfl])]
    apply List.find?_cons_of_pos
    simp [cexC6_dCo2, show cexC6.survey_radius = (0:ℝ) from rfl]
  rw [hfind]
  simp only
  rw [cexC6_opt2]
  rw [if_pos (by
    rw [cexC6_dBnp2, cexC6_dnp2D, cexC6_dBC, cexC6_dCD]
    norm_num)]

theorem cexC6_geo_eval : geometric_optimization cexC6 routeC6 =
    [ptA, mkPoint 0 1, mkPoint (4/3) (-1), ptD] := by
  have hshape : geometric_optimization cexC6 routeC6 =
      [ptA, geoStep cexC6 ptA ptB ptC, geoStep cexC6 ptB ptC ptD, ptD] := rfl
  rw [hshape, cexC6_gs1, cexC6_gs2]

theorem cexC6_validate : cexC6.validate = true := by
  rw [validate_iff]
  refine ⟨?_, by norm_num [cexC6], by norm_num [cexC6], ?_⟩
  · show ¬ peq ptA ptD
    unfold peq ptA ptD
    simp only [mkPoint_x, mkPoint_y]
    intro hc
    have := hc.1
    rw [show (-3/4 : ℝ) - 25/12 = -(17/6) by norm_num] at this
    rw [abs_neg] at this
    rw [abs_of_pos (by norm_num)] at this
    linarith
  · show ptA.distance_to ptD ≤ cexC6.max_distance
    show (mkPoint (-3/4) 1).distance_to (mkPoint (25/12) (-1)) ≤ cexC6.max_distance
    unfold Point.distance_to
    simp only [mkPoint_x, mkPoint_y, mkPoint_error]
    show Real.sqrt _ - 1 ≤ (100:ℝ)
    have : Real.sqrt ((-3/4 - 25/12) ^ 2 + (1 - (-1)) ^ 2) ≤ 101 :=
      sqrt_le_of _ _ (by norm_num) (by norm_num)
    linarith

theorem euclid_lb (p q : Point) (v : ℝ) (hv : 0 ≤ v)
    (h : v ^ 2 ≤ (p.x - q.x) ^ 2 + (p.y - q.y) ^ 2) : v ≤ euclidDist p q :=
  le_sqrt_of _ _ hv h

theorem findIntersection_center_isSome (s c : Point) (r : ℝ)
    (hstay : ¬ s.distance_to c ≤ r) (hr : 0 ≤ r) (he : 0 ≤ s.error) :
    ∃ inter, findIntersection s c c r = some inter := by
  have heuc : euclidDist s c - s.error > r := by
    have h0 : s.distance_to c > r := lt_of_not_le hstay
    rw [distance_to_eq] at h0
    linarith
  have hdpos : 0 < euclidDist s c := by
    have h0 := euclidDist_nonneg s c
    by_contra hc
    push_neg at hc
    have : euclidDist s c = 0 := le_antisymm hc h0
    rw [this] at heuc
    linarith
  simp only [findIntersection]
  rw [euclid_swap]
  rw [if_neg (ne_of_gt hdpos), if_neg hstay]
  set dx := c.x - s.x with hdx
  set dy := c.y - s.y with hdy
  set d := euclidDist s c with hd
  have hdsq : d ^ 2 = dx ^ 2 + dy ^ 2 := by
    rw [hd, hdx, hdy, ← euclid_swap]
    exact Real.sq_sqrt (by positivity)
  have hdne : d ≠ 0 := ne_of_gt hdpos
  have hproj : dx * (dx / d) + dy * (dy / d) = d := by
    field_simp
    linarith [hdsq]
  rw [hproj, if_neg (not_le.mpr hdpos)]
  have hcx : s.x + d * (dx / d) = c.x := by field_simp; rw [hdx]; ring
  have hcy : s.y + d * (dy / d) = c.y := by field_simp; rw [hdy]; ring
  rw [hcx, hcy]
  have hz : Real.sqrt ((c.x - c.x) ^ 2 + (c.y - c.y) ^ 2) = 0 := by simp
  rw [hz, if_neg (not_lt.mpr hr)]
  exact ⟨_, rfl⟩

theorem greedyLoop_break_center (m : Map) (f : ℕ) (s : GState) (nearest : Point)
    (hg : s.routeLength + s.current.distance_to m.end_point ≤ m.max_distance)
    (hne : s.unsurveyed ≠ [])
    (hn : nearestIn s.current s.unsurveyed = some nearest)
    (hstay : ¬ s.current.distance_to nearest ≤ m.survey_radius)
    (hr : 0 ≤ m.survey_radius) (he : 0 ≤ s.current.error)
    (hb : m.max_distance < s.routeLength +
      (euclidDist s.current nearest - m.survey_radius - s.current.error) +
      (euclidDist nearest m.end_point - m.survey_radius - 1)) :
    greedyLoop m (f + 1) s = s := by
  obtain ⟨inter, hi⟩ :=
    findIntersection_center_isSome s.current nearest m.survey_radius hstay hr he
  obtain ⟨hd1, hlb⟩ := findIntersection_break_lb s.current nearest m.end_point
    m.survey_radius inter hstay hr he hi
  apply greedyLoop_break m f s nearest inter hg hne hn hi
  rw [hd1]
  linarith

theorem c8_dST : c8S.distance_to c8T = 7 := by
  show (mkPoint 0 0).distance_to (mkPoint 8 0) = 7
  rw [dist_mk 0 0 8 0 8 (by norm_num) (by norm_num)]
  norm_num

theorem c8_dSo1 : c8S.distance_to c8o1 = 4 := by
  show (mkPoint 0 0).distance_to (mkPoint 5 0) = 4
  rw [dist_mk 0 0 5 0 5 (by norm_num) (by norm_num)]
  norm_num

theorem c8_dSo2 : c8S.distance_to c8o2 = 19/2 := by
  show (mkPoint 0 0).distance_to (mkPoint (21/2) 0) = 19/2
  rw [dist_mk 0 0 (21/2) 0 (21/2) (by norm_num) (by norm_num)]
  norm_num

theorem euclid_ub (p q : Point) (v : ℝ) (hv : 0 < v)
    (h : (p.x - q.x) ^ 2 + (p.y - q.y) ^ 2 < v ^ 2) : euclidDist p q < v :=
  sqrt_lt_of _ _ hv h

theorem c8_dSo3_lb : ¬ c8S.distance_to c8o3 < 4 := by
  show ¬ (mkPoint 0 0).distance_to (mkPoint (-1) (-6)) < 4
  rw [distance_to_eq]
  simp only [mkPoint_error]
  push_neg
  have h := euclid_lb (mkPoint 0 0) (mkPoint (-1) (-6)) 5 (by norm_num)
    (by simp only [mkPoint_x, mkPoint_y]; norm_num)
  linarith

theorem c8_dE1ao1 : (mkPoint 4 0).distance_to c8o1 = 0 := by
  show (mkPoint 4 0).distance_to (mkPoint 5 0) = 0
  rw [dist_mk 4 0 5 0 1 (by norm_num) (by norm_num)]
  norm_num

theorem c8_dE1ao2 : (mkPoint 4 0).distance_to c8o2 = 11/2 := by
  show (mkPoint 4 0).distance_to (mkPoint (21/2) 0) = 11/2
  rw [dist_mk 4 0 (21/2) 0 (13/2) (by norm_num) (by norm_num)]
  norm_num

theorem c8_dE1ao3_lb : ∀ v : ℝ, v ≤ 13/2 → ¬ (mkPoint 4 0).distance_to c8o3 < v := by
  intro v hv
  show ¬ (mkPoint 4 0).distance_to (mkPoint (-1) (-6)) < v
  rw [distance_to_eq]
  simp only [mkPoint_error]
  push_neg
  have h := euclid_lb (mkPoint 4 0) (mkPoint (-1) (-6)) (15/2) (by norm_num)
    (by simp only [mkPoint_x, mkPoint_y]; norm_num)
  linarith

theorem c8_dE1aT : (mkPoint 4 0).distance_to c8T = 3 := by
  show (mkPoint 4 0).distance_to (mkPoint 8 0) = 3
  rw [dist_mk 4 0 8 0 4 (by norm_num) (by norm_num)]
  norm_num

theorem c8_dSE1a : c8S.distance_to (mkPoint 4 0) = 3 := by
  show (mkPoint 0 0).distance_to (mkPoint 4 0) = 3
  rw [dist_mk 0 0 4 0 4 (by norm_num) (by norm_num)]
  norm_num

theorem c8_dE1bo1 : (mkPoint 3 0).distance_to c8o1 = 1 := by
  show (mkPoint 3 0).distance_to (mkPoint 5 0) = 1
  rw [dist_mk 3 0 5 0 2 (by norm_num) (by norm_num)]
  norm_num

theorem c8_dE1bo2 : (mkPoint 3 0).distance_to c8o2 = 13/2 := by
  show (mkPoint 3 0).distance_to (mkPoint (21/2) 0) = 13/2
  rw [dist_mk 3 0 (21/2) 0 (15/2) (by norm_num) (by norm_num)]
  norm_num

theorem c8_dE1bT : (mkPoint 3 0).distance_to c8T = 4 := by
  show (mkPoint 3 0).distance_to (mkPoint 8 0) = 4
  rw [dist_mk 3 0 8 0 5 (by norm_num) (by norm_num)]
  norm_num

theorem c8_dSE1b : c8S.distance_to (mkPoint 3 0) = 2 := by
  show (mkPoint 0 0).distance_to (mkPoint 3 0) = 2
  rw [dist_mk 0 0 3 0 3 (by norm_num) (by norm_num)]
  norm_num

theorem c8_dE1bo3_lt : (mkPoint 3 0).distance_to c8o3 < 13/2 := by
  show (mkPoint 3 0).distance_to (mkPoint (-1) (-6)) < 13/2
  rw [distance_to_eq]
  simp only [mkPoint_error]
  have h := euclid_ub (mkPoint 3 0) (mkPoint (-1) (-6)) (15/2) (by norm_num)
    (by simp only [mkPoint_x, mkPoint_y]; norm_num)
  linarith

theorem c8_dE1bo3_nostay : ¬ (mkPoint 3 0).distance_to c8o3 ≤ 2 := by
  show ¬ (mkPoint 3 0).distance_to (mkPoint (-1) (-6)) ≤ 2
  rw [distance_to_eq]
  simp only [mkPoint_error]
  push_neg
  have h := euclid_lb (mkPoint 3 0) (mkPoint (-1) (-6)) 7 (by norm_num)
    (by simp only [mkPoint_x, mkPoint_y]; norm_num)
  linarith

theorem c8_dE1ao3_nobonus : ¬ (mkPoint 4 0).distance_to c8o3 ≤ 1 := by
  have := c8_dE1ao3_lb 2 (by norm_num)
  push_neg at this
  intro hc
  linarith

theorem c8_dE2ao2 : (mkPoint (19/2) 0).distance_to c8o2 = 0 := by
  show (mkPoint (19/2) 0).distance_to (mkPoint (21/2) 0) = 0
  rw [dist_mk (19/2) 0 (21/2) 0 1 (by norm_num) (by norm_num)]
  norm_num

theorem c8_dE1aE2a : (mkPoint 4 0).distance_to (mkPoint (19/2) 0) = 9/2 := by
  rw [dist_mk 4 0 (19/2) 0 (11/2) (by norm_num) (by norm_num)]
  norm_num

theorem c8_dE2aT : (mkPoint (19/2) 0).distance_to c8T = 1/2 := by
  show (mkPoint (19/2) 0).distance_to (mkPoint 8 0) = 1/2
  rw [dist_mk (19/2) 0 8 0 (3/2) (by norm_num) (by norm_num)]
  norm_num

theorem c8_dE2ao3_nostay : ¬ (mkPoint (19/2) 0).distance_to c8o3 ≤ 1 := by
  show ¬ (mkPoint (19/2) 0).distance_to (mkPoint (-1) (-6)) ≤ 1
  rw [distance_to_eq]
  simp only [mkPoint_error]
  push_neg
  have h := euclid_lb (mkPoint (19/2) 0) (mkPoint (-1) (-6)) 12 (by norm_num)
    (by simp only [mkPoint_x, mkPoint_y]; norm_num)
  linarith

/-- Lower bound on `_point_to_line_distance` valid for every clamped
projection parameter, avoiding the biased-denominator computation. -/
theorem pointToLineDistance_lb (p a b : Point) (v : ℝ)
    (hll : a.distance_to b ≠ 0) (hv : 0 ≤ v)
    (h : ∀ t : ℝ, 0 ≤ t → t ≤ 1 →
      v ^ 2 ≤ (p.x - (a.x + t * (b.x - a.x))) ^ 2 + (p.y - (a.y + t * (b.y - a.y))) ^ 2) :
    v ≤ pointToLineDistance p a b := by
  unfold pointToLineDistance
  rw [if_neg hll]
  apply le_sqrt_of _ _ hv
  apply h
  · exact le_max_left 0 _
  · exact max_le (by norm_num) (min_le_left 1 _)

theorem c8_near1 : nearestIn c8S [c8o1, c8o2, c8o3] = some c8o1 := by
  rw [nearestIn]
  congr 1
  rw [nearestAux, if_neg (by rw [c8_dSo2, c8_dSo1]; norm_num)]
  rw [nearestAux, if_neg (by rw [c8_dSo1]; exact c8_dSo3_lb)]
  rw [nearestAux]

theorem c8_nearA2 : nearestIn (mkPoint 4 0) [c8o2, c8o3] = some c8o2 := by
  rw [nearestIn]
  congr 1
  rw [nearestAux, if_neg (by rw [c8_dE1ao2]; exact c8_dE1ao3_lb (11/2) (by norm_num))]
  rw [nearestAux]

theorem c8_nearA3 : nearestIn (mkPoint (19/2) 0) [c8o3] = some c8o3 := rfl

theorem c8_nearB2 : nearestIn (mkPoint 3 0) [c8o2, c8o3] = some c8o3 := by
  rw [nearestIn]
  congr 1
  rw [nearestAux, if_pos (by rw [c8_dE1bo2]; exact c8_dE1bo3_lt)]
  rw [nearestAux]

theorem c8_fiA1 : findIntersection c8S c8o1 c8o1 1 = some (mkPoint 4 0) := by
  have h := findIntersection_horiz c8S c8o1 1 rfl
    (by show (0:ℝ) < 5; norm_num)
    (by rw [c8_dSo1]; norm_num) (by norm_num)
  rw [h]
  congr 2
  show (5:ℝ) - 1 = 4
  norm_num

theorem c8_fiB1 : findIntersection c8S c8o1 c8o1 2 = some (mkPoint 3 0) := by
  have h := findIntersection_horiz c8S c8o1 2 rfl
    (by show (0:ℝ) < 5; norm_num)
    (by rw [c8_dSo1]; norm_num) (by norm_num)
  rw [h]
  congr 2
  show (5:ℝ) - 2 = 3
  norm_num

theorem c8_fiA2 : findIntersection (mkPoint 4 0) c8o2 c8o2 1 = some (mkPoint (19/2) 0) := by
  have h := findIntersection_horiz (mkPoint 4 0) c8o2 1 rfl
    (by show (4:ℝ) < 21/2; norm_num)
    (by rw [c8_dE1ao2]; norm_num) (by norm_num)
  rw [h]
  congr 2
  show (21/2:ℝ) - 1 = 19/2
  norm_num

theorem c8_filterA1_keep : ([c8o1, c8o2, c8o3].filter fun o =>
    decide (¬ (mkPoint 4 0).distance_to o ≤ mapR1.survey_radius)) = [c8o2, c8o3] := by
  simp only [show mapR1.survey_radius = (1:ℝ) from rfl]
  have h1 : (¬ (mkPoint 4 0).distance_to c8o1 ≤ (1:ℝ)) = False := by
    simp only [c8_dE1ao1, eq_iff_iff, iff_false, not_not]
    norm_num
  have h2 : (¬ (mkPoint 4 0).distance_to c8o2 ≤ (1:ℝ)) = True := by
    simp only [c8_dE1ao2, eq_iff_iff, iff_true]
    norm_num
  have h3 : (¬ (mkPoint 4 0).distance_to c8o3 ≤ (1:ℝ)) = True := by
    simp only [eq_iff_iff, iff_true]
    exact c8_dE1ao3_nobonus
  simp only [List.filter_cons, List.filter_nil, h1, h2, h3]
  simp

theorem c8_filterA1_cov : ([c8o1, c8o2, c8o3].filter fun o =>
    decide ((mkPoint 4 0).distance_to o ≤ mapR1.survey_radius)) = [c8o1] := by
  simp only [show mapR1.survey_radius = (1:ℝ) from rfl]
  have h1 : ((mkPoint 4 0).distance_to c8o1 ≤ (1:ℝ)) = True := by
    simp only [c8_dE1ao1, eq_iff_iff, iff_true]
    norm_num
  have h2 : ((mkPoint 4 0).distance_to c8o2 ≤ (1:ℝ)) = False := by
    simp only [c8_dE1ao2, eq_iff_iff, iff_false]
    norm_num
  have h3 : ((mkPoint 4 0).distance_to c8o3 ≤ (1:ℝ)) = False := by
    simp only [eq_iff_iff, iff_false]
    exact c8_dE1ao3_nobonus
  simp only [List.filter_cons, List.filter_nil, h1, h2, h3]
  simp

theorem c8_dE2ao3_nobonus : ¬ (mkPoint (19/2) 0).distance_to c8o3 ≤ (1:ℝ) :=
  c8_dE2ao3_nostay

theorem c8_filterA2_keep : ([c8o2, c8o3].filter fun o =>
    decide (¬ (mkPoint (19/2) 0).distance_to o ≤ mapR1.survey_radius)) = [c8o3] := by
  simp only [show mapR1.survey_radius = (1:ℝ) from rfl]
  have h2 : (¬ (mkPoint (19/2) 0).distance_to c8o2 ≤ (1:ℝ)) = False := by
    simp only [c8_dE2ao2, eq_iff_iff, iff_false, not_not]
    norm_num
  have h3 : (¬ (mkPoint (19/2) 0).distance_to c8o3 ≤ (1:ℝ)) = True := by
    simp only [eq_iff_iff, iff_true]
    exact c8_dE2ao3_nobonus
  simp only [List.filter_cons, List.filter_nil, h2, h3]
  simp

theorem c8_filterA2_cov : ([c8o2, c8o3].filter fun o =>
    decide ((mkPoint (19/2) 0).distance_to o ≤ mapR1.survey_radius)) = [c8o2] := by
  simp only [show mapR1.survey_radius = (1:ℝ) from rfl]
  have h2 : ((mkPoint (19/2) 0).distance_to c8o2 ≤ (1:ℝ)) = True := by
    simp only [c8_dE2ao2, eq_iff_iff, iff_true]
    norm_num
  have h3 : ((mkPoint (19/2) 0).distance_to c8o3 ≤ (1:ℝ)) = False := by
    simp only [eq_iff_iff, iff_false]
    exact c8_dE2ao3_nobonus
  simp only [List.filter_cons, List.filter_nil, h2, h3]
  simp

theorem c8_filterB1_keep : ([c8o1, c8o2, c8o3].filter fun o =>
    decide (¬ (mkPoint 3 0).distance_to o ≤ mapR2.survey_radius)) = [c8o2, c8o3] := by
  simp only [show mapR2.survey_radius = (2:ℝ) from rfl]
  have h1 : (¬ (mkPoint 3 0).distance_to c8o1 ≤ (2:ℝ)) = False := by
    simp only [c8_dE1bo1, eq_iff_iff, iff_false, not_not]
    norm_num
  have h2 : (¬ (mkPoint 3 0).distance_to c8o2 ≤ (2:ℝ)) = True := by
    simp only [c8_dE1bo2, eq_iff_iff, iff_true]
    norm_num
  have h3 : (¬ (mkPoint 3 0).distance_to c8o3 ≤ (2:ℝ)) = True := by
    simp only [eq_iff_iff, iff_true]
    exact c8_dE1bo3_nostay
  simp only [List.filter_cons, List.filter_nil, h1, h2, h3]
  simp

theorem c8_filterB1_cov : ([c8o1, c8o2, c8o3].filter fun o =>
    decide ((mkPoint 3 0).distance_to o ≤ mapR2.survey_radius)) = [c8o1] := by
  simp only [show mapR2.survey_radius = (2:ℝ) from rfl]
  have h1 : ((mkPoint 3 0).distance_to c8o1 ≤ (2:ℝ)) = True := by
    simp only [c8_dE1bo1, eq_iff_iff, iff_true]
    norm_num
  have h2 : ((mkPoint 3 0).distance_to c8o2 ≤ (2:ℝ)) = False := by
    simp only [c8_dE1bo2, eq_iff_iff, iff_false]
    norm_num
  have h3 : ((mkPoint 3 0).distance_to c8o3 ≤ (2:ℝ)) = False := by
    simp only [eq_iff_iff, iff_false]
    exact c8_dE1bo3_nostay
  simp only [List.filter_cons, List.filter_nil, h1, h2, h3]
  simp

theorem c8_runA_step1 : greedyLoop mapR1 3 (initState mapR1) = greedyLoop mapR1 2
    ⟨[c8S, mkPoint 4 0], 3, mkPoint 4 0, [c8o2, c8o3], [c8o1]⟩ := by
  have h := greedyLoop_commit mapR1 2 (initState mapR1) c8o1 (mkPoint 4 0)
    (by show (0:ℝ) + c8S.distance_to c8T ≤ 10
        rw [c8_dST]; norm_num)
    (by show ([c8o1, c8o2, c8o3] : List Point) ≠ []; simp)
    (by show nearestIn c8S [c8o1, c8o2, c8o3] = some c8o1; exact c8_near1)
    (by show findIntersection c8S c8o1 c8o1 1 = some (mkPoint 4 0); exact c8_fiA1)
    (by show ¬ (10:ℝ) < 0 + c8S.distance_to (mkPoint 4 0) + (mkPoint 4 0).distance_to c8T
        rw [c8_dSE1a, c8_dE1aT]; norm_num)
  rw [h]
  congr 1
  show (⟨[c8S] ++ [mkPoint 4 0], 0 + c8S.distance_to (mkPoint 4 0), mkPoint 4 0,
    [c8o1, c8o2, c8o3].filter fun o =>
      decide (¬ (mkPoint 4 0).distance_to o ≤ mapR1.survey_radius),
    [] ++ [c8o1, c8o2, c8o3].filter fun o =>
      decide ((mkPoint 4 0).distance_to o ≤ mapR1.survey_radius)⟩ : GState) = _
  rw [c8_dSE1a, c8_filterA1_keep, c8_filterA1_cov]
  norm_num

theorem c8_runA_step2 : greedyLoop mapR1 2
    (⟨[c8S, mkPoint 4 0], 3, mkPoint 4 0, [c8o2, c8o3], [c8o1]⟩ : GState) = greedyLoop mapR1 1
    ⟨[c8S, mkPoint 4 0, mkPoint (19/2) 0], 15/2, mkPoint (19/2) 0, [c8o3],
      [c8o1, c8o2]⟩ := by
  have h := greedyLoop_commit mapR1 1
    (⟨[c8S, mkPoint 4 0], 3, mkPoint 4 0, [c8o2, c8o3], [c8o1]⟩ : GState) c8o2
    (mkPoint (19/2) 0)
    (by show (3:ℝ) + (mkPoint 4 0).distance_to c8T ≤ 10
        rw [c8_dE1aT]; norm_num)
    (by show ([c8o2, c8o3] : List Point) ≠ []; simp)
    (by show nearestIn (mkPoint 4 0) [c8o2, c8o3] = some c8o2; exact c8_nearA2)
    (by show findIntersection (mkPoint 4 0) c8o2 c8o2 1 = some (mkPoint (19/2) 0)
        exact c8_fiA2)
    (by show ¬ (10:ℝ) < 3 + (mkPoint 4 0).distance_to (mkPoint (19/2) 0) +
          (mkPoint (19/2) 0).distance_to c8T
        rw [c8_dE1aE2a, c8_dE2aT]; norm_num)
  rw [h]
  congr 1
  show (⟨[c8S, mkPoint 4 0] ++ [mkPoint (19/2) 0],
    3 + (mkPoint 4 0).distance_to (mkPoint (19/2) 0), mkPoint (19/2) 0,
    [c8o2, c8o3].filter fun o =>
      decide (¬ (mkPoint (19/2) 0).distance_to o ≤ mapR1.survey_radius),
    [c8o1] ++ [c8o2, c8o3].filter fun o =>
      decide ((mkPoint (19/2) 0).distance_to o ≤ mapR1.survey_radius)⟩ : GState) = _
  rw [c8_dE1aE2a, c8_filterA2_keep, c8_filterA2_cov]
  norm_num

theorem c8_runA_step3 : greedyLoop mapR1 1
    (⟨[c8S, mkPoint 4 0, mkPoint (19/2) 0], 15/2, mkPoint (19/2) 0, [c8o3],
      [c8o1, c8o2]⟩ : GState) =
    ⟨[c8S, mkPoint 4 0, mkPoint (19/2) 0], 15/2, mkPoint (19/2) 0, [c8o3],
      [c8o1, c8o2]⟩ := by
  apply greedyLoop_break_center mapR1 0 _ c8o3
  · show (15/2:ℝ) + (mkPoint (19/2) 0).distance_to c8T ≤ 10
    rw [c8_dE2aT]; norm_num
  · show ([c8o3] : List Point) ≠ []; simp
  · exact c8_nearA3
  · show ¬ (mkPoint (19/2) 0).distance_to c8o3 ≤ mapR1.survey_radius
    exact c8_dE2ao3_nostay
  · show (0:ℝ) ≤ 1; norm_num
  · show (0:ℝ) ≤ 1; norm_num
  · show mapR1.max_distance < (15/2:ℝ) +
      (euclidDist (mkPoint (19/2) 0) c8o3 - mapR1.survey_radius - (mkPoint (19/2) 0).error) +
      (euclidDist c8o3 c8T - mapR1.survey_radius - 1)
    have h1 : (12:ℝ) ≤ euclidDist (mkPoint (19/2) 0) c8o3 := by
      apply euclid_lb _ _ _ (by norm_num)
      show (12:ℝ)^2 ≤ ((mkPoint (19/2) 0).x - (mkPoint (-1) (-6)).x) ^ 2 +
        ((mkPoint (19/2) 0).y - (mkPoint (-1) (-6)).y) ^ 2
      simp only [mkPoint_x, mkPoint_y]
      norm_num
    have h2 : (10:ℝ) ≤ euclidDist c8o3 c8T := by
      apply euclid_lb _ _ _ (by norm_num)
      show (10:ℝ)^2 ≤ ((mkPoint (-1) (-6)).x - (mkPoint 8 0).x) ^ 2 +
        ((mkPoint (-1) (-6)).y - (mkPoint 8 0).y) ^ 2
      simp only [mkPoint_x, mkPoint_y]
      norm_num
    show (10:ℝ) < 15/2 + (euclidDist (mkPoint (19/2) 0) c8o3 - 1 - 1) +
      (euclidDist c8o3 c8T - 1 - 1)
    linarith

theorem c8_runB_step1 : greedyLoop mapR2 3 (initState mapR2) = greedyLoop mapR2 2
    ⟨[c8S, mkPoint 3 0], 2, mkPoint 3 0, [c8o2, c8o3], [c8o1]⟩ := by
  have h := greedyLoop_commit mapR2 2 (initState mapR2) c8o1 (mkPoint 3 0)
    (by show (0:ℝ) + c8S.distance_to c8T ≤ 10
        rw [c8_dST]; norm_num)
    (by show ([c8o1, c8o2, c8o3] : List Point) ≠ []; simp)
    (by show nearestIn c8S [c8o1, c8o2, c8o3] = some c8o1; exact c8_near1)
    (by show findIntersection c8S c8o1 c8o1 2 = some (mkPoint 3 0); exact c8_fiB1)
    (by show ¬ (10:ℝ) < 0 + c8S.distance_to (mkPoint 3 0) + (mkPoint 3 0).distance_to c8T
        rw [c8_dSE1b, c8_dE1bT]; norm_num)
  rw [h]
  congr 1
  show (⟨[c8S] ++ [mkPoint 3 0], 0 + c8S.distance_to (mkPoint 3 0), mkPoint 3 0,
    [c8o1, c8o2, c8o3].filter fun o =>
      decide (¬ (mkPoint 3 0).distance_to o ≤ mapR2.survey_radius),
    [] ++ [c8o1, c8o2, c8o3].filter fun o =>
      decide ((mkPoint 3 0).distance_to o ≤ mapR2.survey_radius)⟩ : GState) = _
  rw [c8_dSE1b, c8_filterB1_keep, c8_filterB1_cov]
  norm_num

theorem c8_runB_step2 : greedyLoop mapR2 2
    (⟨[c8S, mkPoint 3 0], 2, mkPoint 3 0, [c8o2, c8o3], [c8o1]⟩ : GState) =
    ⟨[c8S, mkPoint 3 0], 2, mkPoint 3 0, [c8o2, c8o3], [c8o1]⟩ := by
  apply greedyLoop_break_center mapR2 1 _ c8o3
  · show (2:ℝ) + (mkPoint 3 0).distance_to c8T ≤ 10
    rw [c8_dE1bT]; norm_num
  · show ([c8o2, c8o3] : List Point) ≠ []; simp
  · exact c8_nearB2
  · show ¬ (mkPoint 3 0).distance_to c8o3 ≤ mapR2.survey_radius
    exact c8_dE1bo3_nostay
  · show (0:ℝ) ≤ 2; norm_num
  · show (0:ℝ) ≤ 1; norm_num
  · show mapR2.max_distance < (2:ℝ) +
      (euclidDist (mkPoint 3 0) c8o3 - mapR2.survey_radius - (mkPoint 3 0).error) +
      (euclidDist c8o3 c8T - mapR2.survey_radius - 1)
    have h1 : (7:ℝ) ≤ euclidDist (mkPoint 3 0) c8o3 := by
      apply euclid_lb _ _ _ (by norm_num)
      show (7:ℝ)^2 ≤ ((mkPoint 3 0).x - (mkPoint (-1) (-6)).x) ^ 2 +
        ((mkPoint 3 0).y - (mkPoint (-1) (-6)).y) ^ 2
      simp only [mkPoint_x, mkPoint_y]
      norm_num
    have h2 : (10:ℝ) ≤ euclidDist c8o3 c8T := by
      apply euclid_lb _ _ _ (by norm_num)
      show (10:ℝ)^2 ≤ ((mkPoint (-1) (-6)).x - (mkPoint 8 0).x) ^ 2 +
        ((mkPoint (-1) (-6)).y - (mkPoint 8 0).y) ^ 2
      simp only [mkPoint_x, mkPoint_y]
      norm_num
    show (10:ℝ) < 2 + (euclidDist (mkPoint 3 0) c8o3 - 2 - 1) +
      (euclidDist c8o3 c8T - 2 - 1)
    linarith

theorem c8_postA : greedyPostLoop mapR1
    (⟨[c8S, mkPoint 4 0, mkPoint (19/2) 0], 15/2, mkPoint (19/2) 0, [c8o3],
      [c8o1, c8o2]⟩ : GState) = [c8o1, c8o2] := by
  unfold greedyPostLoop
  rw [if_pos]
  · have hd : ¬ pointToLineDistance c8o3 (mkPoint (19/2) 0) c8T ≤ mapR1.survey_radius := by
      show ¬ pointToLineDistance c8o3 (mkPoint (19/2) 0) c8T ≤ (1:ℝ)
      push_neg
      have h6 : (6:ℝ) ≤ pointToLineDistance c8o3 (mkPoint (19/2) 0) c8T := by
        apply pointToLineDistance_lb
        · rw [c8_dE2aT]; norm_num
        · norm_num
        · intro t ht0 ht1
          show (6:ℝ)^2 ≤ ((mkPoint (-1) (-6)).x - ((mkPoint (19/2) 0).x +
            t * ((mkPoint 8 0).x - (mkPoint (19/2) 0).x))) ^ 2 +
            ((mkPoint (-1) (-6)).y - ((mkPoint (19/2) 0).y +
            t * ((mkPoint 8 0).y - (mkPoint (19/2) 0).y))) ^ 2
          simp only [mkPoint_x, mkPoint_y]
          nlinarith [sq_nonneg ((-1:ℝ) - (19/2 + t * (8 - 19/2)))]
      linarith
    show [c8o1, c8o2] ++ ([c8o3].filter fun o =>
      decide (pointToLineDistance o (mkPoint (19/2) 0) mapR1.end_point ≤
        mapR1.survey_radius)) = [c8o1, c8o2]
    have hd2 : ¬ pointToLineDistance c8o3 (mkPoint (19/2) 0) mapR1.end_point ≤
      mapR1.survey_radius := hd
    simp only [List.filter_cons, List.filter_nil]
    simp [hd2]
  · constructor
    · show ([c8o3] : List Point) ≠ []; simp
    · show (15/2:ℝ) + (mkPoint (19/2) 0).distance_to c8T ≤ 10
      rw [c8_dE2aT]; norm_num

theorem c8_postB : greedyPostLoop mapR2
    (⟨[c8S, mkPoint 3 0], 2, mkPoint 3 0, [c8o2, c8o3], [c8o1]⟩ : GState) = [c8o1] := by
  unfold greedyPostLoop
  rw [if_pos]
  · have hd2 : ¬ pointToLineDistance c8o2 (mkPoint 3 0) c8T ≤ mapR2.survey_radius := by
      show ¬ pointToLineDistance c8o2 (mkPoint 3 0) c8T ≤ (2:ℝ)
      push_neg
      have h52 : (5/2:ℝ) ≤ pointToLineDistance c8o2 (mkPoint 3 0) c8T := by
        apply pointToLineDistance_lb
        · rw [c8_dE1bT]; norm_num
        · norm_num
        · intro t ht0 ht1
          show (5/2:ℝ)^2 ≤ ((mkPoint (21/2) 0).x - ((mkPoint 3 0).x +
            t * ((mkPoint 8 0).x - (mkPoint 3 0).x))) ^ 2 +
            ((mkPoint (21/2) 0).y - ((mkPoint 3 0).y +
            t * ((mkPoint 8 0).y - (mkPoint 3 0).y))) ^ 2
          simp only [mkPoint_x, mkPoint_y]
          have hx : (21/2:ℝ) - (3 + t * (8 - 3)) ≥ 5/2 := by linarith
          nlinarith [hx]
      linarith
    have hd3 : ¬ pointToLineDistance c8o3 (mkPoint 3 0) c8T ≤ mapR2.survey_radius := by
      show ¬ pointToLineDistance c8o3 (mkPoint 3 0) c8T ≤ (2:ℝ)
      push_neg
      have h6 : (6:ℝ) ≤ pointToLineDistance c8o3 (mkPoint 3 0) c8T := by
        apply pointToLineDistance_lb
        · rw [c8_dE1bT]; norm_num
        · norm_num
        · intro t ht0 ht1
          show (6:ℝ)^2 ≤ ((mkPoint (-1) (-6)).x - ((mkPoint 3 0).x +
            t * ((mkPoint 8 0).x - (mkPoint 3 0).x))) ^ 2 +
            ((mkPoint (-1) (-6)).y - ((mkPoint 3 0).y +
            t * ((mkPoint 8 0).y - (mkPoint 3 0).y))) ^ 2
          simp only [mkPoint_x, mkPoint_y]
          nlinarith [sq_nonneg ((-1:ℝ) - (3 + t * (8 - 3)))]
      linarith
    show [c8o1] ++ ([c8o2, c8o3].filter fun o =>
      decide (pointToLineDistance o (mkPoint 3 0) mapR2.end_point ≤
        mapR2.survey_radius)) = [c8o1]
    have hd2b : ¬ pointToLineDistance c8o2 (mkPoint 3 0) mapR2.end_point ≤
      mapR2.survey_radius := hd2
    have hd3b : ¬ pointToLineDistance c8o3 (mkPoint 3 0) mapR2.end_point ≤
      mapR2.survey_radius := hd3
    simp only [List.filter_cons, List.filter_nil]
    simp [hd2b, hd3b]
  · constructor
    · show ([c8o2, c8o3] : List Point) ≠ []; simp
    · show (2:ℝ) + (mkPoint 3 0).distance_to c8T ≤ 10
      rw [c8_dE1bT]; norm_num

theorem c8_surveyedA : (greedySolve mapR1).2.1 = [c8o1, c8o2] := by
  show greedyPostLoop mapR1 (greedyLoop mapR1 3 (initState mapR1)) = _
  rw [c8_runA_step1, c8_runA_step2, c8_runA_step3]
  exact c8_postA

theorem c8_surveyedB : (greedySolve mapR2).2.1 = [c8o1] := by
  show greedyPostLoop mapR2 (greedyLoop mapR2 3 (initState mapR2)) = _
  rw [c8_runB_step1, c8_runB_step2]
  exact c8_postB

theorem c8_validateR1 : mapR1.validate = true := by
  rw [validate_iff]
  refine ⟨?_, by norm_num [mapR1], by norm_num [mapR1], ?_⟩
  · show ¬ peq c8S c8T
    unfold peq c8S c8T
    simp only [mkPoint_x, mkPoint_y]
    intro hc
    have := hc.1
    rw [show (0:ℝ) - 8 = -8 by norm_num, abs_neg, abs_of_pos (by norm_num)] at this
    linarith
  · show c8S.distance_to c8T ≤ mapR1.max_distance
    rw [c8_dST]
    show (7:ℝ) ≤ 10
    norm_num

theorem c8_validateR2 : mapR2.validate = true := by
  rw [validate_iff]
  refine ⟨?_, by norm_num [mapR2], by norm_num [mapR2], ?_⟩
  · show ¬ peq c8S c8T
    unfold peq c8S c8T
    simp only [mkPoint_x, mkPoint_y]
    intro hc
    have := hc.1
    rw [show (0:ℝ) - 8 = -8 by norm_num, abs_neg, abs_of_pos (by norm_num)] at this
    linarith
  · show c8S.distance_to c8T ≤ mapR2.max_distance
    rw [c8_dST]
    show (7:ℝ) ≤ 10
    norm_num

theorem simpleMap_validate : simpleMap.validate = true := by
  rw [validate_iff]
  refine ⟨?_, by norm_num [simpleMap], by norm_num [simpleMap], ?_⟩
  · show ¬ peq (mkPoint 0 0) (mkPoint 3 0)
    unfold peq
    simp only [mkPoint_x, mkPoint_y]
    intro hc
    have := hc.1
    rw [show (0:ℝ) - 3 = -3 by norm_num, abs_neg, abs_of_pos (by norm_num)] at this
    linarith
  · show (mkPoint 0 0).distance_to (mkPoint 3 0) ≤ (10:ℝ)
    rw [dist_mk 0 0 3 0 3 (by norm_num) (by norm_num)]
    norm_num

-- ## Claim theorems

/-- C1: for every Map that passes validate, the greedy solver's returned
route keeps `calculate_route_distance` within `max_distance`; the loop
guard, the per-detour feasibility check and the post-loop budget check
maintain this at every fuel level. -/
theorem claim_C1 (m : Map) (h : m.validate = true) :
    calculate_route_distance (greedySolve m).1 ≤ m.max_distance ∧
      ∀ f, calculate_route_distance (greedySolveFuel f m).1 ≤ m.max_distance :=
  ⟨greedySolveFuel_budget m h m.objects.length, fun f => greedySolveFuel_budget m h f⟩

/-- C1 witness: the theorem applied to a concrete validated map. -/
theorem claim_C1_witness :
    simpleMap.validate = true ∧
      calculate_route_distance (greedySolve simpleMap).1 ≤ simpleMap.max_distance :=
  ⟨simpleMap_validate, (claim_C1 simpleMap simpleMap_validate).1⟩

/-- C2: on every validated Map, both solvers return a route whose first
element is the start point, whose last element is the end point, and
whose length is at least 2; the heuristic's 2-opt, geometric and removal
steps never touch the endpoint positions. -/
theorem claim_C2 (m : Map) (h : m.validate = true) :
    ((greedySolve m).1.head? = some m.start_point ∧
      (greedySolve m).1.getLast? = some m.end_point ∧ 2 ≤ (greedySolve m).1.length) ∧
    ∀ f2, (heuristicSolve f2 m).1.head? = some m.start_point ∧
      (heuristicSolve f2 m).1.getLast? = some m.end_point ∧
      2 ≤ (heuristicSolve f2 m).1.length := by
  constructor
  · exact greedySolveFuel_endpoints m h m.objects.length
  · intro f2
    obtain ⟨i1, i2, i3⟩ := greedyInitialRoute_props m
    exact heurLoop_props m f2 50 (greedyInitialRoute m) i1 i2 i3

/-- C2 witness: the theorem applied to a concrete validated map. -/
theorem claim_C2_witness :
    simpleMap.validate = true ∧
      (greedySolve simpleMap).1.head? = some simpleMap.start_point :=
  ⟨simpleMap_validate, (claim_C2 simpleMap simpleMap_validate).1.1⟩

/-- C3 counterexample: a map whose start-to-end Euclidean distance
exceeds the budget still validates, because the code checks the biased
`distance_to` (Euclidean minus the start point's error of 1), not the
plain Euclidean distance the claim asserts. -/
theorem claim_C3_counterexample :
    (⟨mkPoint 0 0, mkPoint 4 0, [], 7/2, 1⟩ : Map).validate = true ∧
      ¬ specValidate ⟨mkPoint 0 0, mkPoint 4 0, [], 7/2, 1⟩ := by
  constructor
  · rw [validate_iff]
    refine ⟨?_, by norm_num, by norm_num, ?_⟩
    · show ¬ peq (mkPoint 0 0) (mkPoint 4 0)
      unfold peq
      simp only [mkPoint_x, mkPoint_y]
      intro hc
      have := hc.1
      rw [show (0:ℝ) - 4 = -4 by norm_num, abs_neg, abs_of_pos (by norm_num)] at this
      linarith
    · show (mkPoint 0 0).distance_to (mkPoint 4 0) ≤ (7/2 : ℝ)
      rw [dist_mk 0 0 4 0 4 (by norm_num) (by norm_num)]
      norm_num
  · intro hc
    have h4 := hc.2.2.2
    have he : euclidDist (mkPoint 0 0) (mkPoint 4 0) = 4 := by
      apply euclid_eval _ _ 4 (by norm_num)
      simp only [mkPoint_x, mkPoint_y]
      norm_num
    rw [he] at h4
    norm_num at h4

/-- C3 amended: validate returns true iff start and end differ under the
tolerance equality, the budget is positive, the radius is nonnegative,
and the biased start-to-end distance (Euclidean minus the start point's
error) is within the budget. -/
theorem claim_C3_amended (m : Map) :
    m.validate = true ↔
      (¬ peq m.start_point m.end_point ∧ 0 < m.max_distance ∧ 0 ≤ m.survey_radius ∧
        euclidDist m.start_point m.end_point - m.start_point.error ≤ m.max_distance) := by
  rw [validate_iff, distance_to_eq]

/-- C3 amended witness: the characterisation applied to a concrete map. -/
theorem claim_C3_amended_witness :
    simpleMap.validate = true ↔
      (¬ peq simpleMap.start_point simpleMap.end_point ∧ 0 < simpleMap.max_distance ∧
        0 ≤ simpleMap.survey_radius ∧
        euclidDist simpleMap.start_point simpleMap.end_point -
          simpleMap.start_point.error ≤ simpleMap.max_distance) :=
  claim_C3_amended simpleMap

/-- C4 counterexample: two points equal under the 0.01-tolerance equality
whose hashes (exact coordinate pairs) differ, refuting hash consistency
with the tolerance equality. -/
theorem claim_C4_counterexample :
    peq (mkPoint 0 0) (mkPoint (1/200) 0) ∧
      phash (mkPoint 0 0) ≠ phash (mkPoint (1/200) 0) := by
  constructor
  · unfold peq
    simp only [mkPoint_x, mkPoint_y]
    constructor
    · rw [show (0:ℝ) - 1/200 = -(1/200) by norm_num, abs_neg, abs_of_pos (by norm_num)]
      norm_num
    · simp
      norm_num
  · unfold phash
    simp only [mkPoint_x, mkPoint_y, ne_eq, Prod.mk.injEq]
    intro hc
    have := hc.1
    norm_num at this

/-- C4 amended: equality is the coordinate-proximity relation with
tolerance 0.01, independent of name and error; hashing is the exact
coordinate pair, also independent of name and error; hash consistency
holds only for exact coordinate equality, not for the tolerance
equality. -/
theorem claim_C4_amended :
    (∀ (x y u v e1 e2 : ℝ) (n1 n2 : String),
      peq ⟨x, y, n1, e1⟩ ⟨u, v, n2, e2⟩ ↔ |x - u| < 0.01 ∧ |y - v| < 0.01) ∧
    (∀ (x y e : ℝ) (n : String), phash ⟨x, y, n, e⟩ = (x, y)) ∧
    (∀ a b : Point, a.x = b.x → a.y = b.y → phash a = phash b) := by
  refine ⟨fun x y u v e1 e2 n1 n2 => Iff.rfl, fun x y e n => rfl, fun a b hx hy => ?_⟩
  unfold phash
  rw [hx, hy]

/-- C4 amended witness: two points with equal coordinates but different
names and errors hash alike. -/
theorem claim_C4_amended_witness :
    phash ⟨1, 2, "p", 1⟩ = phash ⟨1, 2, "q", 5⟩ :=
  claim_C4_amended.2.2 ⟨1, 2, "p", 1⟩ ⟨1, 2, "q", 5⟩ rfl rfl

/-- C5 counterexample: a coverage decision at radius 3 where the greedy
post-loop test `_point_to_line_distance` (unbiased return value) rejects
an object that the biased `distance_point_to_segment` accepts, refuting
the claim that the biased distance drives every distance-based
decision. -/
theorem claim_C5_counterexample :
    ¬ pointToLineDistance (mkPoint 0 (7/2)) (mkPoint 0 0) (mkPoint 4 0) ≤ 3 ∧
      (mkPoint 0 (7/2)).distance_point_to_segment (mkPoint 0 0) (mkPoint 4 0) ≤ 3 := by
  have hll : (mkPoint 0 0).distance_to (mkPoint 4 0) = 3 := by
    rw [dist_mk 0 0 4 0 4 (by norm_num) (by norm_num)]
    norm_num
  constructor
  · push_neg
    have h72 : (7/2:ℝ) ≤ pointToLineDistance (mkPoint 0 (7/2)) (mkPoint 0 0) (mkPoint 4 0) := by
      apply pointToLineDistance_lb
      · rw [hll]; norm_num
      · norm_num
      · intro t ht0 ht1
        show (7/2:ℝ)^2 ≤ ((mkPoint 0 (7/2)).x - ((mkPoint 0 0).x +
          t * ((mkPoint 4 0).x - (mkPoint 0 0).x))) ^ 2 +
          ((mkPoint 0 (7/2)).y - ((mkPoint 0 0).y +
          t * ((mkPoint 4 0).y - (mkPoint 0 0).y))) ^ 2
        simp only [mkPoint_x, mkPoint_y]
        nlinarith [sq_nonneg ((0:ℝ) - (0 + t * (4 - 0)))]
    linarith
  · unfold Point.distance_point_to_segment
    rw [if_neg (by
      simp only [mkPoint_x, mkPoint_y]
      intro hc
      have := hc.1
      norm_num at this)]
    simp only [mkPoint_x, mkPoint_y]
    rw [show ((0 - 0) * (4 - 0) + (7/2 - 0) * (0 - 0)) / ((4 - (0:ℝ)) * (4 - 0) +
      (0 - 0) * (0 - 0)) = 0 by norm_num]
    rw [min_eq_right (by norm_num), max_eq_right (by norm_num)]
    rw [show (0:ℝ) + 0 * (4 - 0) = 0 by norm_num, show (0:ℝ) + 0 * (0 - 0) = 0 by norm_num]
    rw [dist_mk 0 (7/2) 0 0 (7/2) (by norm_num) (by norm_num)]
    norm_num

/-- C5 amended: `distance_to` is the Euclidean distance minus the
receiver's error, the constructor fixes that error at 1, and the biased
distance drives the budget, nearest-object and shared coverage logic,
but the greedy post-loop check returns a plain unbiased Euclidean
distance to a clamped point of the segment. -/
theorem claim_C5_amended :
    (∀ p q : Point, p.distance_to q = euclidDist p q - p.error) ∧
    (∀ x y : ℝ, (mkPoint x y).error = 1) ∧
    (∀ p a b : Point, a.distance_to b ≠ 0 → ∃ t : ℝ, 0 ≤ t ∧ t ≤ 1 ∧
      pointToLineDistance p a b =
        euclidDist p (mkPoint (a.x + t * (b.x - a.x)) (a.y + t * (b.y - a.y)))) := by
  refine ⟨fun p q => distance_to_eq p q, fun x y => rfl, fun p a b hne => ?_⟩
  refine ⟨max 0 (min 1 (((p.x - a.x) * (b.x - a.x) + (p.y - a.y) * (b.y - a.y)) /
    (a.distance_to b) ^ 2)), le_max_left _ _, max_le (by norm_num) (min_le_left _ _), ?_⟩
  unfold pointToLineDistance
  rw [if_neg hne]
  simp only [euclidDist, mkPoint_x, mkPoint_y]

/-- C5 amended witness: the unbiased form of the post-loop distance at a
concrete segment. -/
theorem claim_C5_amended_witness :
    (mkPoint 0 0).distance_to (mkPoint 4 0) ≠ 0 ∧
      ∃ t : ℝ, 0 ≤ t ∧ t ≤ 1 ∧
        pointToLineDistance (mkPoint 0 (7/2)) (mkPoint 0 0) (mkPoint 4 0) =
          euclidDist (mkPoint 0 (7/2))
            (mkPoint ((mkPoint 0 0).x + t * ((mkPoint 4 0).x - (mkPoint 0 0).x))
              ((mkPoint 0 0).y + t * ((mkPoint 4 0).y - (mkPoint 0 0).y))) := by
  have hne : (mkPoint 0 0).distance_to (mkPoint 4 0) ≠ 0 := by
    rw [dist_mk 0 0 4 0 4 (by norm_num) (by norm_num)]
    norm_num
  exact ⟨hne, claim_C5_amended.2.2 (mkPoint 0 (7/2)) (mkPoint 0 0) (mkPoint 4 0) hne⟩

/-- C6 counterexample: on a validated map, one pass of the geometric
optimization strictly increases the total route distance: both interior
points are replaced, each improvement measured against the original
neighbours, and the new middle edge outweighs the gains. -/
theorem claim_C6_counterexample :
    cexC6.validate = true ∧
      calculate_route_distance routeC6 <
        calculate_route_distance (geometric_optimization cexC6 routeC6) := by
  refine ⟨cexC6_validate, ?_⟩
  rw [cexC6_geo_eval]
  have hL : calculate_route_distance routeC6 = 5/6 := by
    show ptA.distance_to ptB + (ptB.distance_to ptC + (ptC.distance_to ptD + 0)) = 5/6
    rw [cexC6_dAB, cexC6_dBC, cexC6_dCD]
    norm_num
  have hR : calculate_route_distance [ptA, mkPoint 0 1, mkPoint (4/3) (-1), ptD] =
      ptA.distance_to (mkPoint 0 1) + ((mkPoint 0 1).distance_to (mkPoint (4/3) (-1)) +
        ((mkPoint (4/3) (-1)).distance_to ptD + 0)) := rfl
  rw [hL, hR, cexC6_dAo1, cexC6_dnp2D]
  have hmid : (7/3 : ℝ) < euclidDist (mkPoint 0 1) (mkPoint (4/3) (-1)) := by
    show (7/3:ℝ) < Real.sqrt (((mkPoint 0 1).x - (mkPoint (4/3) (-1)).x) ^ 2 +
      ((mkPoint 0 1).y - (mkPoint (4/3) (-1)).y) ^ 2)
    apply lt_sqrt_of _ _ (by norm_num)
    simp only [mkPoint_x, mkPoint_y]
    norm_num
  have hd : (mkPoint 0 1).distance_to (mkPoint (4/3) (-1)) =
      euclidDist (mkPoint 0 1) (mkPoint (4/3) (-1)) - 1 := by
    rw [distance_to_eq]
    simp
  rw [hd]
  linarith

/-- C6 amended: the 2-opt pass never increases the total route distance
at any fuel, and the single-point removal never increases it when the
route has at least 4 points; the geometric pass and the 3-point collapse
are the steps without this guarantee. -/
theorem claim_C6_amended :
    (∀ (f : ℕ) (r : List Point),
      calculate_route_distance (twoOpt f r) ≤ calculate_route_distance r) ∧
    (∀ (m : Map) (r : List Point), 4 ≤ r.length →
      calculate_route_distance (remove_farthest_point m r) ≤
        calculate_route_distance r) :=
  ⟨fun f r => (twoOpt_props f r).1, fun m r h4 => (remove_farthest_props m r h4).1⟩

/-- C6 amended witness: the removal bound applied at a concrete 4-point
route. -/
theorem claim_C6_amended_witness :
    4 ≤ ([mkPoint 0 0, mkPoint 1 0, mkPoint 2 0, mkPoint 3 0] : List Point).length ∧
      calculate_route_distance (remove_farthest_point simpleMap
        [mkPoint 0 0, mkPoint 1 0, mkPoint 2 0, mkPoint 3 0]) ≤
        calculate_route_distance [mkPoint 0 0, mkPoint 1 0, mkPoint 2 0, mkPoint 3 0] :=
  ⟨by simp, claim_C6_amended.2 simpleMap _ (by simp)⟩

/-- C7: on a validated Map with no objects, both solvers return exactly
the direct route, an empty surveyed collection, and the (biased) direct
distance as the total. -/
theorem claim_C7 (m : Map) (h : m.validate = true) (hobj : m.objects = []) :
    greedySolve m =
      ([m.start_point, m.end_point], [], m.start_point.distance_to m.end_point) ∧
    ∀ f2, heuristicSolve f2 m =
      ([m.start_point, m.end_point], [], m.start_point.distance_to m.end_point) :=
  ⟨greedySolve_empty m hobj, fun f2 => heuristicSolve_empty m h hobj f2⟩

/-- C7 witness: the empty-objects behaviour at a concrete validated
map. -/
theorem claim_C7_witness :
    simpleMap.validate = true ∧ simpleMap.objects = [] ∧
      greedySolve simpleMap = ([simpleMap.start_point, simpleMap.end_point], [],
        simpleMap.start_point.distance_to simpleMap.end_point) :=
  ⟨simpleMap_validate, rfl, (claim_C7 simpleMap simpleMap_validate rfl).1⟩

/-- C8 counterexample: two validated maps identical except for the
survey radius, where rerunning the greedy solver with the larger radius
surveys strictly fewer objects: the larger circle moves the entry point
closer, the nearest-object choice flips to a far decoy, and the budget
break fires before the second object is reached. -/
theorem claim_C8_counterexample :
    mapR1.validate = true ∧ mapR2.validate = true ∧
      mapR1.start_point = mapR2.start_point ∧ mapR1.end_point = mapR2.end_point ∧
      mapR1.objects = mapR2.objects ∧ mapR1.max_distance = mapR2.max_distance ∧
      mapR1.survey_radius < mapR2.survey_radius ∧
      (greedySolve mapR2).2.1.length < (greedySolve mapR1).2.1.length := by
  refine ⟨c8_validateR1, c8_validateR2, rfl, rfl, rfl, rfl, ?_, ?_⟩
  · show (1:ℝ) < 2
    norm_num
  · rw [c8_surveyedA, c8_surveyedB]
    simp

/-- C8 amended: for a FIXED route, coverage is monotone in the radius:
with all other map fields equal and r1 ≤ r2, every object surveyed by
`get_surveyed_objects` at radius r1 is surveyed at radius r2. -/
theorem claim_C8_amended (m1 m2 : Map) (route : List Point)
    (hs : m2.start_point = m1.start_point) (he : m2.end_point = m1.end_point)
    (ho : m2.objects = m1.objects) (hr : m1.survey_radius ≤ m2.survey_radius) :
    ∀ o ∈ get_surveyed_objects m1 route, o ∈ get_surveyed_objects m2 route := by
  intro o hmem
  unfold get_surveyed_objects at hmem ⊢
  rw [List.mem_filter] at hmem ⊢
  obtain ⟨hol, hcov⟩ := hmem
  rw [decide_eq_true_eq] at hcov
  refine ⟨by rw [ho]; exact hol, ?_⟩
  rw [decide_eq_true_eq]
  obtain ⟨ab, hab, hle⟩ := hcov
  refine ⟨ab, ?_, le_trans hle hr⟩
  rw [hs, he]
  exact hab

/-- C8 amended witness: fixed-route monotonicity at a concrete map pair
differing only in radius 0 versus 1. -/
theorem claim_C8_amended_witness :
    mkPoint 2 0 ∈ get_surveyed_objects ⟨mkPoint 0 0, mkPoint 4 0, [mkPoint 2 0], 10, 0⟩ [] ∧
      mkPoint 2 0 ∈ get_surveyed_objects ⟨mkPoint 0 0, mkPoint 4 0, [mkPoint 2 0], 10, 1⟩ [] := by
  have hseg : (mkPoint 2 0).distance_point_to_segment (mkPoint 0 0) (mkPoint 4 0) ≤ (0:ℝ) := by
    unfold Point.distance_point_to_segment
    rw [if_neg (by
      simp only [mkPoint_x, mkPoint_y]
      intro hc
      have := hc.1
      norm_num at this)]
    simp only [mkPoint_x, mkPoint_y]
    rw [show ((2 - 0) * (4 - 0) + (0 - 0) * (0 - 0)) / ((4 - (0:ℝ)) * (4 - 0) +
      (0 - 0) * (0 - 0)) = 1/2 by norm_num]
    rw [min_eq_right (by norm_num), max_eq_right (by norm_num)]
    rw [show (0:ℝ) + 1/2 * (4 - 0) = 2 by norm_num, show (0:ℝ) + 1/2 * (0 - 0) = 0 by norm_num]
    rw [dist_mk 2 0 2 0 0 (by norm_num) (by norm_num)]
    norm_num
  have hcov : coveredBy (mkPoint 2 0)
      ((mkPoint 0 0) :: ([] : List Point) ++ [mkPoint 4 0]) (0:ℝ) := by
    refine ⟨(mkPoint 0 0, mkPoint 4 0), ?_, ?_⟩
    · show (mkPoint 0 0, mkPoint 4 0) ∈ pairsOf [mkPoint 0 0, mkPoint 4 0]
      simp [pairsOf]
    · show (mkPoint 2 0).distance_point_to_segment (mkPoint 0 0) (mkPoint 4 0) ≤ (0:ℝ)
      exact hseg
  have hmem1 : mkPoint 2 0 ∈
      get_surveyed_objects ⟨mkPoint 0 0, mkPoint 4 0, [mkPoint 2 0], 10, 0⟩ [] := by
    unfold get_surveyed_objects
    rw [List.mem_filter]
    exact ⟨List.mem_singleton_self _, decide_eq_true hcov⟩
  exact ⟨hmem1, claim_C8_amended ⟨mkPoint 0 0, mkPoint 4 0, [mkPoint 2 0], 10, 0⟩
    ⟨mkPoint 0 0, mkPoint 4 0, [mkPoint 2 0], 10, 1⟩ [] rfl rfl rfl
    (by show (0:ℝ) ≤ 1; norm_num) (mkPoint 2 0) hmem1⟩

/-- C9 counterexample: a map with a negative survey radius and an object
at the start position on which the greedy loop commits an entry point
without removing any object: the uncovered set keeps its length while
the route keeps growing, so the loop never terminates. -/
theorem claim_C9_counterexample :
    (greedyLoop cexC9 1 (initState cexC9)).unsurveyed.length =
      (initState cexC9).unsurveyed.length ∧
    (greedyLoop cexC9 1 (initState cexC9)).route.length = 2 ∧
    greedyLoop cexC9 2 (initState cexC9) ≠ greedyLoop cexC9 1 (initState cexC9) := by
  refine ⟨?_, cexC9_run1.1, ?_⟩
  · rw [cexC9_run1.2]
    rfl
  · intro h
    have h2 := cexC9_run2.1
    rw [h, cexC9_run1.1] at h2
    norm_num at h2

/-- C9 amended: for every map with nonnegative survey radius and
nonnegative start-point error (in particular every validated map), the
greedy loop stabilizes within `objects.length` iterations, so the
fuelled solver agrees with `greedySolve` at any sufficient fuel: each
non-breaking iteration removes at least the chosen object. -/
theorem claim_C9_amended (m : Map) (hr : 0 ≤ m.survey_radius)
    (he : 0 ≤ m.start_point.error) :
    ∀ f, m.objects.length ≤ f → greedySolveFuel f m = greedySolve m := by
  intro f hf
  obtain ⟨k, hk⟩ := Nat.exists_eq_add_of_le hf
  subst hk
  show greedySolveFuel (m.objects.length + k) m = greedySolveFuel m.objects.length m
  have hs := greedyLoop_add_stable m hr (initState m) he k
  have hs2 : greedyLoop m (m.objects.length + k) (initState m) =
      greedyLoop m m.objects.length (initState m) := hs
  simp only [greedySolveFuel]
  rw [hs2]

/-- C9 amended witness: stabilization at a concrete validated map with
surplus fuel. -/
theorem claim_C9_amended_witness :
    0 ≤ simpleMap.survey_radius ∧ 0 ≤ simpleMap.start_point.error ∧
      simpleMap.objects.length ≤ 5 ∧ greedySolveFuel 5 simpleMap = greedySolve simpleMap := by
  have hr : (0:ℝ) ≤ simpleMap.survey_radius := by
    show (0:ℝ) ≤ 1
    norm_num
  have he : (0:ℝ) ≤ simpleMap.start_point.error := by
    show (0:ℝ) ≤ 1
    norm_num
  exact ⟨hr, he, by simp [simpleMap], claim_C9_amended simpleMap hr he 5 (by simp [simpleMap])⟩

/-- C10: the constructor fixes error at 1 and `distance_to` subtracts
it, so the self-distance of every constructed point is -1, any pair
closer than 1 apart has negative distance, and the total distance of a
non-degenerate route of closely spaced points is negative. -/
theorem claim_C10 :
    (∀ x y : ℝ, (mkPoint x y).error = 1) ∧
    (∀ x y : ℝ, (mkPoint x y).distance_to (mkPoint x y) = -1) ∧
    (∀ x1 y1 x2 y2 : ℝ, euclidDist (mkPoint x1 y1) (mkPoint x2 y2) < 1 →
      (mkPoint x1 y1).distance_to (mkPoint x2 y2) < 0) ∧
    calculate_route_distance [mkPoint 0 0, mkPoint (1/2) 0, mkPoint 1 0] < 0 := by
  refine ⟨fun x y => rfl, fun x y => ?_, fun x1 y1 x2 y2 h => ?_, ?_⟩
  · rw [distance_to_eq, euclid_eval (mkPoint x y) (mkPoint x y) 0 le_rfl (by
      simp only [mkPoint_x, mkPoint_y]
      ring)]
    simp only [mkPoint_error]
    norm_num
  · rw [distance_to_eq]
    simp only [mkPoint_error]
    linarith
  · show (mkPoint 0 0).distance_to (mkPoint (1/2) 0) +
      ((mkPoint (1/2) 0).distance_to (mkPoint 1 0) + 0) < 0
    rw [dist_mk 0 0 (1/2) 0 (1/2) (by norm_num) (by norm_num),
      dist_mk (1/2) 0 1 0 (1/2) (by norm_num) (by norm_num)]
    norm_num

/-- C10 witness: the negative-distance conjunct applied at a concrete
close pair. -/
theorem claim_C10_witness :
    euclidDist (mkPoint 0 0) (mkPoint (1/2) 0) < 1 ∧
      (mkPoint 0 0).distance_to (mkPoint (1/2) 0) < 0 := by
  have he : euclidDist (mkPoint 0 0) (mkPoint (1/2) 0) < 1 := by
    rw [euclid_eval (mkPoint 0 0) (mkPoint (1/2) 0) (1/2) (by norm_num) (by
      simp only [mkPoint_x, mkPoint_y]
      norm_num)]
    norm_num
  exact ⟨he, claim_C10.2.2.1 0 0 (1/2) 0 he⟩
